import Mathlib

/-!
# Verification of the musz_lenex result-normalization engine

A shallow embedding, in Lean 4, of the core of the `musz_lenex` repository:
the three swim-time text parsers (`_parse_swimtime` in
`scripts/import_lenex.py`, `scripts/scrape_musz_results.py` and
`scripts/scrape_musz_result_pages.py`), the athlete / club upsert
operations, the per-run result dedup of the scrape adapters, the
session-discovery traversal of the heat-page scraper, the status
write-back of the adapter drivers, and the per-document LENEX import.

Python strings are modelled as `List Char`; machine integers as `Int`
(Python ints are unbounded); SQL rows as Lean structures collected in
lists; the database connection as explicit state threading (every
executed statement is visible in the final state, matching the scripts'
commit discipline where the trailing status-update commit persists the
whole pending transaction).
-/

namespace MuszLenex

/-! ## Python string primitives -/

/-- ASCII decimal digit test, mirroring Python `str.isdigit` on the
ASCII inputs this pipeline produces. -/
def isDigitC (c : Char) : Bool := '0' ≤ c && c ≤ '9'

/-- Numeric value of an ASCII digit character. -/
def digitVal (c : Char) : Nat := c.toNat - 48

/-- Python `str.upper` on the ASCII range. -/
def pyUpper (l : List Char) : List Char := l.map Char.toUpper

/-- Python `str.lower` on the ASCII range. -/
def pyLower (l : List Char) : List Char := l.map Char.toLower

/-- Python whitespace test for `str.strip` / `str.split()`. -/
def isSpaceC (c : Char) : Bool :=
  c = ' ' || c = '\t' || c = '\n' || c = '\r' || c = '\x0b' || c = '\x0c'

/-- Python `str.strip()`: remove leading and trailing whitespace. -/
def pyStrip (l : List Char) : List Char :=
  ((l.dropWhile isSpaceC).reverse.dropWhile isSpaceC).reverse

/-- Python `str.replace` with single-character arguments. -/
def pyReplace (a b : Char) (l : List Char) : List Char :=
  l.map (fun c => if c = a then b else c)

/-- Python `str.split(sep)` with a single-character separator:
always returns at least one (possibly empty) part. -/
def splitOnC (sep : Char) : List Char → List (List Char)
  | [] => [[]]
  | c :: rest =>
    if c = sep then [] :: splitOnC sep rest
    else
      match splitOnC sep rest with
      | [] => [[c]]
      | h :: t => (c :: h) :: t

/-- Value of an all-digit string (`none` if empty or non-digit). -/
def digitsVal (l : List Char) : Option Nat :=
  if l ≠ [] ∧ l.all isDigitC then
    some (l.foldl (fun acc c => 10 * acc + digitVal c) 0)
  else none

/-- Value of a digit list, total version (used where digits were already
checked by a pattern match, as in a regex group). -/
def digitsNat (l : List Char) : Nat :=
  l.foldl (fun acc c => 10 * acc + digitVal c) 0

/-- Python `int(str)`: optional surrounding whitespace, optional sign,
then decimal digits.  Raising `ValueError` is modelled as `none`. -/
def pyInt (l : List Char) : Option Int :=
  match pyStrip l with
  | [] => none
  | c :: rest =>
    if c = '-' then (digitsVal rest).map (fun n => -(n : Int))
    else if c = '+' then (digitsVal rest).map (fun n => (n : Int))
    else (digitsVal (c :: rest)).map (fun n => (n : Int))

/-- Python `str.split()` (no argument): split on whitespace runs,
dropping empty parts. -/
def wordsAux : List Char → List Char → List (List Char)
  | [], acc => if acc = [] then [] else [acc.reverse]
  | c :: rest, acc =>
    if isSpaceC c then
      (if acc = [] then wordsAux rest [] else acc.reverse :: wordsAux rest [])
    else wordsAux rest (c :: acc)

def pyWords (l : List Char) : List (List Char) := wordsAux l []

/-- `a` is a leading segment of `b`. -/
def startsWithL : List Char → List Char → Bool
  | [], _ => true
  | _ :: _, [] => false
  | a :: as, b :: bs => a == b && startsWithL as bs

/-- Python `p in s` substring test. -/
def isSubstring (p : List Char) : List Char → Bool
  | [] => startsWithL p []
  | c :: rest => startsWithL p (c :: rest) || isSubstring p rest

/-! ## The time codec: the three `_parse_swimtime` implementations -/

/-- Shared seconds-part handling of all three parsers: Python

```
if '.' in sec_part:
    sec, hund = sec_part.split('.')
    sec = int(sec)
    hund = int((hund + '00')[:2])  # pad/truncate to 2 digits
else:
    sec = int(sec_part); hund = 0
return hours * 360000 + minutes * 6000 + sec * 100 + hund
```

The scrape parsers have no hours term, which is the `hours = 0` case. -/
def secPartVal (hours minutes : Int) (sp : List Char) : Option Int :=
  if sp.any (fun c => c == '.') then
    match splitOnC '.' sp with
    | [s, hd] =>
      match pyInt s, pyInt ((hd ++ ['0', '0']).take 2) with
      | some sec, some hu => some (hours * 360000 + minutes * 6000 + sec * 100 + hu)
      | _, _ => none
    | _ => none
  else
    match pyInt sp with
    | some sec => some (hours * 360000 + minutes * 6000 + sec * 100)
    | none => none

/-- The numeric body of `import_lenex._parse_swimtime` (the `try` block,
`scripts/import_lenex.py` lines 38-61): split on `:` after comma
normalization and strip, reading 1, 2 or 3+ parts.  A Python
`ValueError`/`IndexError` anywhere is `none`. -/
def lenexSwimtimeBody (l : List Char) : Option Int :=
  let parts := splitOnC ':' (pyStrip (pyReplace ',' '.' l))
  match parts with
  | [sp] => secPartVal 0 0 sp
  | [p0, sp] =>
    match pyInt p0 with
    | some m => secPartVal 0 m sp
    | none => none
  | p0 :: p1 :: sp :: _ =>
    match pyInt p0, pyInt p1 with
    | some h, some m => secPartVal h m sp
    | _, _ => none
  | [] => none

/-- Null-token tuple of `import_lenex._parse_swimtime`
(`'NT', 'DNS', 'DSQ', 'DQ', 'SCR', ''`). -/
def lenexNullTokens : List (List Char) :=
  [['N', 'T'], ['D', 'N', 'S'], ['D', 'S', 'Q'], ['D', 'Q'], ['S', 'C', 'R'], []]

/-- `import_lenex._parse_swimtime` (`scripts/import_lenex.py` lines 32-61). -/
def lenexParseSwimtimeL (l : List Char) : Option Int :=
  if l = [] ∨ pyUpper l ∈ lenexNullTokens then none
  else lenexSwimtimeBody l

def lenexParseSwimtime (s : String) : Option Int := lenexParseSwimtimeL s.data

/-- Null-token tuple of the two scrape parsers
(`'NT', 'DNS', 'DSQ', 'DQ', 'VL', '-', ''`). -/
def scrapeNullTokens : List (List Char) :=
  [['N', 'T'], ['D', 'N', 'S'], ['D', 'S', 'Q'], ['D', 'Q'], ['V', 'L'], ['-'], []]

/-- Colon-split fallback shared by the two scrape parsers, applied to the
already comma-normalized, stripped text: only the first two `:` parts are
read (`m, sec = int(parts[0]), parts[1]`), so any third part is ignored. -/
def scrapeFallback (s : List Char) : Option Int :=
  match splitOnC ':' s with
  | [sp] => secPartVal 0 0 sp
  | p0 :: sp :: _ =>
    match pyInt p0 with
    | some m => secPartVal 0 m sp
    | none => none
  | [] => none

/-- The numeric body of `scrape_musz_results._parse_swimtime`
(`scripts/scrape_musz_results.py` lines 48-62). -/
def resultsSwimtimeBody (l : List Char) : Option Int :=
  scrapeFallback (pyStrip (pyReplace ',' '.' l))

/-- `scrape_musz_results._parse_swimtime` (lines 44-62). -/
def resultsParseSwimtimeL (l : List Char) : Option Int :=
  if l = [] ∨ pyUpper l ∈ scrapeNullTokens then none
  else resultsSwimtimeBody l

def resultsParseSwimtime (s : String) : Option Int := resultsParseSwimtimeL s.data

/-- One attempt of the regex `(\d{1,2}):(\d{2})\.(\d{2})` tail
`:(\d{2})\.(\d{2})` at the current position; returns seconds, hundredths
and the consumed characters. -/
def clockTail : List Char → Option (Nat × Nat × List Char)
  | k0 :: a :: b :: k1 :: u :: v :: _ =>
    if k0 == ':' && isDigitC a && isDigitC b && k1 == '.' && isDigitC u && isDigitC v then
      some (10 * digitVal a + digitVal b, 10 * digitVal u + digitVal v,
            [k0, a, b, k1, u, v])
    else none
  | _ => none

/-- One anchored attempt of `(\d{1,2}):(\d{2})\.(\d{2})`: the engine tries
the greedy two-digit minutes group first, then backtracks to one digit.
Returns minutes, seconds, hundredths and the matched substring
(`match.group(0)`). -/
def clockAt : List Char → Option (Nat × Nat × Nat × List Char)
  | a :: rest =>
    if isDigitC a then
      match rest with
      | b :: rest2 =>
        if isDigitC b then
          match clockTail rest2 with
          | some (s, h, tl) => some (10 * digitVal a + digitVal b, s, h, a :: b :: tl)
          | none =>
            match clockTail rest with
            | some (s, h, tl) => some (digitVal a, s, h, a :: tl)
            | none => none
        else
          match clockTail rest with
          | some (s, h, tl) => some (digitVal a, s, h, a :: tl)
          | none => none
      | [] => none
    else none
  | [] => none

/-- `re.search(r'(\d{1,2}):(\d{2})\.(\d{2})', s)`: leftmost match. -/
def clockFind : List Char → Option (Nat × Nat × Nat × List Char)
  | [] => none
  | a :: rest =>
    match clockAt (a :: rest) with
    | some r => some r
    | none => clockFind rest

/-- `scrape_musz_result_pages._parse_swimtime`
(`scripts/scrape_musz_result_pages.py` lines 42-67): after the null-token
gate and comma/strip normalization it first looks for an embedded
`M{1,2}:SS.hh` clock pattern, falling back to the same colon-split logic
as `scrape_musz_results`. -/
def pagesParseSwimtimeL (l : List Char) : Option Int :=
  if l = [] ∨ pyUpper l ∈ scrapeNullTokens then none
  else
    let s := pyStrip (pyReplace ',' '.' l)
    match clockFind s with
    | some (m, sec, hu, _) => some ((m : Int) * 6000 + (sec : Int) * 100 + (hu : Int))
    | none => scrapeFallback s

def pagesParseSwimtime (s : String) : Option Int := pagesParseSwimtimeL s.data

example : lenexParseSwimtime "1:02.9" = some 6290 := by decide
example : lenexParseSwimtime "1:02.875" = some 6287 := by decide
example : lenexParseSwimtime "40.09" = some 4009 := by decide
example : lenexParseSwimtime "00:00:40.09" = some 4009 := by decide
example : lenexParseSwimtime "NT" = none := by decide
example : pagesParseSwimtime "04:51.71" = some 29171 := by decide
example : pagesParseSwimtime "1:02.9" = some 6290 := by decide
example : pagesParseSwimtime "1:02.875" = some 6287 := by decide
example : resultsParseSwimtime "00:01:23.45" = some 100 := by decide
example : resultsParseSwimtime "1:23.45" = some 8345 := by decide

/-! ## Spec-modelled inverse formatter -/

def digitCh : Nat → Char
  | 0 => '0' | 1 => '1' | 2 => '2' | 3 => '3' | 4 => '4'
  | 5 => '5' | 6 => '6' | 7 => '7' | 8 => '8' | _ => '9'

def digitChars : List Char := ['0', '1', '2', '3', '4', '5', '6', '7', '8', '9']

/-- Modelled from the spec: the repository's source files contain no
inverse formatter for swim times (the codec's "and back" direction), so
the zero-padded two-digit field rendering named by the spec is modelled
here from the spec's words (forms `MM:SS.hh` and `HH:MM:SS.hh`, matching
the example `00:00:40.09` in the structured parser's doc string). -/
def pad2 (n : Nat) : List Char :=
  if n < 10 then ['0', digitCh n] else [digitCh (n / 10), digitCh (n % 10)]

/-- Modelled from the spec: render hundredths in the `MM:SS.hh` form. -/
def fmtMMSS (h : Nat) : List Char :=
  pad2 (h / 6000) ++ ':' :: (pad2 (h % 6000 / 100) ++ '.' :: pad2 (h % 100))

/-- Modelled from the spec: render hundredths in the `HH:MM:SS.hh` form. -/
def fmtHHMMSS (h : Nat) : List Char :=
  pad2 (h / 360000) ++ ':' :: fmtMMSS (h % 360000)

/-! ## Canonical rows shared by both adapters -/

/-- A `lx_club` row (`id, lenexclubcode, name, nation`). -/
structure ClubRow where
  id : Nat
  code : List Char
  name : List Char
  nation : Option String
deriving DecidableEq

/-- A `lx_athlete` row. Dates are encoded as `year*10000 + month*100 + day`. -/
structure AthleteRow where
  id : Int
  firstname : Option String
  lastname : Option String
  birthdate : Option Nat
  gender : Option String
deriving DecidableEq

/-- The `lx_athlete` upsert of `import_lenex.py` lines 240-251:

```
INSERT ... ON CONFLICT (id) DO UPDATE SET
  firstname = COALESCE(EXCLUDED.firstname, lx_athlete.firstname), ...
```

`EXCLUDED` is the incoming row, so each stored field becomes the incoming
value when that is non-null and keeps the stored value otherwise. -/
def upsertLxAthlete (athletes : List AthleteRow) (i : Int)
    (fn ln : Option String) (bd : Option Nat) (g : Option String) :
    List AthleteRow :=
  if athletes.any (fun a => a.id == i) then
    athletes.map (fun a =>
      if a.id == i then
        { a with firstname := fn <|> a.firstname, lastname := ln <|> a.lastname,
                 birthdate := bd <|> a.birthdate, gender := g <|> a.gender }
      else a)
  else athletes ++ [⟨i, fn, ln, bd, g⟩]

/-! ## The scrape adapters' database state and row extraction -/

/-- A `lx_event` row as inserted by the scrape adapters. -/
structure ScrapeEventRow where
  id : Nat
  meetid : Int
  stroke : String
  distance : Nat
  round : String
  gender : String
deriving DecidableEq

/-- A `lx_session` row as inserted by the heat-page scraper. -/
structure ScrapeSessionRow where
  id : Nat
  meetid : Int
  sessionnumber : Nat
  sessiondate : Option Nat
deriving DecidableEq

/-- A `lx_result` row as inserted by the scrape adapters (keyed by event
row id and heat number, not a heat row id; the summary scraper leaves
status, reaction time and FINA points null). -/
structure ScrapeResultRow where
  id : Nat
  athleteid : Int
  eventid : Nat
  heatnumber : Nat
  clubid : Nat
  lane : Option Int
  timehundredths : Option Int
  status : Option String
  rank : Option Int
  reactiontimehundredths : Option Int
  finapoints : Option Int
deriving DecidableEq

/-- Database state touched by the scrape adapters. `nextId` models the
insert-returning-id sequences. -/
structure ScrapeDb where
  clubs : List ClubRow
  athletes : List AthleteRow
  sessions : List ScrapeSessionRow
  events : List ScrapeEventRow
  results : List ScrapeResultRow
  splits : List (Nat × Nat × Nat)
  nextId : Nat
deriving DecidableEq

def emptyScrapeDb : ScrapeDb := ⟨[], [], [], [], [], [], 1⟩

/-- Club resolution of both scrape adapters
(`scrape_musz_result_pages.py` lines 503-512, `scrape_musz_results.py`
lines 385-394): `SELECT id FROM lx_club WHERE lenexclubcode = code`,
falling back to `INSERT INTO lx_club(lenexclubcode, name, nation)
VALUES (code, club_name or club_code, 'HUN')`. -/
def resolveOrCreateClub (db : ScrapeDb) (code nm : List Char) : Nat × ScrapeDb :=
  match db.clubs.find? (fun c => c.code == code) with
  | some c => (c.id, db)
  | none =>
    (db.nextId,
     { db with
        clubs := db.clubs ++ [⟨db.nextId, code, if nm = [] then code else nm, some "HUN"⟩],
        nextId := db.nextId + 1 })

/-- `(club_name or '')[:32] or 'UNK'`: the club code used for every
scraped result row. -/
def clubCodeOf (s : String) : List Char :=
  if s.data.take 32 = [] then "UNK".data else s.data.take 32

/-- State of one scrape run: the database plus the in-memory
`seen_heat_athlete` dedup set of `(event row id, heat number, athlete id)`
triples. -/
structure ExtractState where
  db : ScrapeDb
  seen : List (Nat × Nat × Int)
deriving DecidableEq

/-- `get_text(strip=True)` followed by `.replace('*', '').strip()`. -/
def cleanCell (s : String) : List Char :=
  pyStrip (s.data.filter (fun c => c != '*'))

/-- `int(rank_s) if rank_s and rank_s.isdigit() else None`. -/
def rankOfCell (s : String) : Option Int :=
  let r := cleanCell s
  if r ≠ [] ∧ r.all isDigitC then (digitsVal r).map (fun n => (n : Int)) else none

/-- `time_s = time_match.group(0) if time_match else
(time_raw.split()[0] if time_raw else '')` of the heat-page scraper
(lines 464-465).  (When `time_raw` is nonempty it has been stripped, so
`split()` is nonempty; the model totalizes the unreachable empty case.) -/
def timeSOf (raw : List Char) : List Char :=
  match clockFind raw with
  | some (_, _, _, sub) => sub
  | none => if raw = [] then [] else (pyWords raw).headD []

/-- `time_hund = _parse_swimtime(time_s) if time_s else None` (line 466). -/
def timeHundOf (raw : List Char) : Option Int :=
  let ts := timeSOf raw
  if ts = [] then none else pagesParseSwimtimeL ts

/-- One anchored attempt of `R:(\d+)\.(\d{2})` (IGNORECASE). -/
def rtAt : List Char → Option Int
  | r :: k :: rest =>
    if (r == 'R' || r == 'r') && k == ':' then
      let ds := rest.takeWhile isDigitC
      let rest2 := rest.dropWhile isDigitC
      if ds ≠ [] then
        match rest2 with
        | p :: u :: v :: _ =>
          if p == '.' && isDigitC u && isDigitC v then
            some ((digitsNat ds : Int) * 100 + (10 * digitVal u + digitVal v : Nat))
          else none
        | _ => none
      else none
    else none
  | _ => none

/-- `re.search(r'R:(\d+)\.(\d{2})', time_raw, re.IGNORECASE)` giving the
reaction time in hundredths (line 467-468). -/
def rtFind : List Char → Option Int
  | [] => none
  | c :: rest =>
    match rtAt (c :: rest) with
    | some r => some r
    | none => rtFind rest

/-- `int(float(pts_raw))` for plain decimal literals; any other shape
(or Python's exotic float syntax, unused by this site) is `none`. -/
def pyFloatTrunc (l : List Char) : Option Int :=
  let t := pyStrip l
  let su : Bool × List Char :=
    match t with
    | '-' :: r => (true, r)
    | '+' :: r => (false, r)
    | _ => (false, t)
  match splitOnC '.' su.2 with
  | [a] =>
    (digitsVal a).map (fun n => if su.1 then -(n : Int) else (n : Int))
  | [a, b] =>
    if (a ≠ [] ∨ b ≠ []) ∧ a.all isDigitC ∧ b.all isDigitC then
      some (if su.1 then -(digitsNat a : Int) else (digitsNat a : Int))
    else none
  | _ => none

/-- FINA-points cell: `int(float(pts_raw)) if pts_raw else None`,
exceptions swallowed (lines 470-475). -/
def finaOfCell : Option String → Option Int
  | none => none
  | some s =>
    let p := pyStrip s.data
    if p ≠ [] then pyFloatTrunc p else none

/-- Status vocabulary scanned, in order, as substrings of the uppercased
time cell (lines 476-480). -/
def pageStatusTokens : List String := ["DNS", "DSQ", "DQ", "DNF", "SCR", "NT"]

def statusOfCell (raw : List Char) : Option String :=
  pageStatusTokens.find? (fun t => isSubstring t.data (pyUpper raw))

/-- Lane cell: `int(ln_s)` when `ln_s.replace('-','').isdigit()`
(lines 490-494).  (For interior dashes like `1-2` Python's `int` would
raise out of the row loop; such cells do not occur and are modelled as
`none`.) -/
def laneOfCell : Option String → Option Int
  | none => none
  | some s =>
    let t := pyStrip s.data
    let digitsOnly := t.filter (fun c => c != '-')
    if t ≠ [] ∧ digitsOnly ≠ [] ∧ digitsOnly.all isDigitC then pyInt t else none

/-- One table row of the heat-page scraper after cell location and athlete
link parsing: the raw texts of the located cells, the link's parsed athlete
id, names, club text, optional birth year, and the pre-parsed split pairs
from the sibling splittimes container / row text. -/
structure RawRow where
  tooFew : Bool
  rankCell : String
  timeCell : String
  hasLink : Bool
  umk : Option Int
  firstname : String
  lastname : String
  clubText : String
  birthYear : Option Nat
  laneCell : Option String
  finaCell : Option String
  splitsRows : List (Nat × Nat)
deriving DecidableEq

/-- Split inserts for one result (lines 545-550). -/
def insertSplits (resultId : Nat) (db : ScrapeDb) (sps : List (Nat × Nat)) : ScrapeDb :=
  sps.foldl (fun d p => { d with splits := d.splits ++ [(resultId, p.1, p.2)] }) db

/-- Athlete check-and-insert of both scrape adapters (pages lines 514-527,
summary lines 396-412): the upsert only runs when the id is absent, with
birth year falling back to a swimmer-page fetch, stored as `(year, Jan 1)`. -/
def scrapeEnsureAthlete (fetchBY : Int → Option Nat) (db : ScrapeDb) (umk : Int)
    (fn ln : String) (birthYear : Option Nat) : ScrapeDb :=
  if db.athletes.any (fun a => a.id == umk) then db
  else
    let by2 := match birthYear with
      | some y => some y
      | none => fetchBY umk
    let bd := by2.map (fun y => y * 10000 + 101)
    { db with athletes :=
        upsertLxAthlete db.athletes umk (some fn) (some ln) bd (some "X") }

/-- Processing of one table row by the heat-page scraper
(`scrape_musz_result_pages.py` lines 453-550), from the located cells to
the `lx_result` / `lx_split` inserts, in source order: cell parses, link
guard, dedup guard, empty-row guard, seen-set update, club resolve,
athlete ensure, result insert, split inserts. -/
def pagesProcessRow (fetchBY : Int → Option Nat) (evRowId heatnumber : Nat)
    (st : ExtractState) (row : RawRow) : ExtractState :=
  if row.tooFew then st else
  let rank := rankOfCell row.rankCell
  let timeRaw := cleanCell row.timeCell
  let timeHund := timeHundOf timeRaw
  let reaction := rtFind timeRaw
  let fina := finaOfCell row.finaCell
  let status := statusOfCell timeRaw
  if ¬ row.hasLink then st else
  match row.umk with
  | none => st
  | some umk =>
    let lane := laneOfCell row.laneCell
    if (evRowId, heatnumber, umk) ∈ st.seen then st else
    if timeHund = none ∧ status = none then st else
    let seen' := (evRowId, heatnumber, umk) :: st.seen
    let cc := clubCodeOf row.clubText
    let rc := resolveOrCreateClub st.db cc row.clubText.data
    let db1 := scrapeEnsureAthlete fetchBY rc.2 umk row.firstname row.lastname row.birthYear
    let resultId := db1.nextId
    let db2 := { db1 with
      results := db1.results ++
        [⟨resultId, umk, evRowId, heatnumber, rc.1, lane, timeHund, status,
          rank, reaction, fina⟩],
      nextId := db1.nextId + 1 }
    ⟨insertSplits resultId db2 row.splitsRows, seen'⟩

def pagesExtractRows (fetchBY : Int → Option Nat) (evRowId heatnumber : Nat)
    (st : ExtractState) (rows : List RawRow) : ExtractState :=
  rows.foldl (pagesProcessRow fetchBY evRowId heatnumber) st

/-- One table row of the summary scraper (`scrape_musz_results.py` lines
331-419) after cell location and link parsing.  `heatFromLink` is the
outcome of the HeatId-link scan (heat number plus optional `h/l` lane);
`heatFromText` the `X/Y` plain-text fallback. -/
structure SumRow where
  tooFew : Bool
  rankCell : String
  timeCell : String
  hasLink : Bool
  umk : Option Int
  firstname : String
  lastname : String
  clubText : String
  birthYear : Option Nat
  heatFromLink : Option (Nat × Option Int)
  heatFromText : Option (Nat × Int)
deriving DecidableEq

/-- Heat number and lane of a summary row: link wins, then text fallback,
then heat 1 (lines 348-377). -/
def sumHeatLane (row : SumRow) : Nat × Option Int :=
  match row.heatFromLink with
  | some (h, l) => (h, l)
  | none =>
    match row.heatFromText with
    | some (h, l) => (h, some l)
    | none => (1, none)

/-- Summary time cell:
`text.replace('*','').split()[0] if text else ''` (line 337). -/
def sumTimeS (s : String) : List Char :=
  let t0 := pyStrip s.data
  if t0 = [] then [] else (pyWords (t0.filter (fun c => c != '*'))).headD []

/-- Processing of one summary-table row (`scrape_musz_results.py` lines
331-419): no status column, no empty-row guard, result insert leaves
status/reaction/FINA null. -/
def sumProcessRow (fetchBY : Int → Option Nat) (evRowId : Nat)
    (st : ExtractState) (row : SumRow) : ExtractState :=
  if row.tooFew then st else
  let rank := rankOfCell row.rankCell
  let timeHund := resultsParseSwimtimeL (sumTimeS row.timeCell)
  if ¬ row.hasLink then st else
  match row.umk with
  | none => st
  | some umk =>
    let hl := sumHeatLane row
    if (evRowId, hl.1, umk) ∈ st.seen then st else
    let seen' := (evRowId, hl.1, umk) :: st.seen
    let cc := clubCodeOf row.clubText
    let rc := resolveOrCreateClub st.db cc row.clubText.data
    let db1 := scrapeEnsureAthlete fetchBY rc.2 umk row.firstname row.lastname row.birthYear
    let db2 := { db1 with
      results := db1.results ++
        [⟨db1.nextId, umk, evRowId, hl.1, rc.1, hl.2, timeHund, none, rank,
          none, none⟩],
      nextId := db1.nextId + 1 }
    ⟨db2, seen'⟩

def sumExtractRows (fetchBY : Int → Option Nat) (evRowId : Nat)
    (st : ExtractState) (rows : List SumRow) : ExtractState :=
  rows.foldl (sumProcessRow fetchBY evRowId) st

/-- The `(event row, heat number, athlete)` key of a stored result. -/
def resultTriple (r : ScrapeResultRow) : Nat × Nat × Int :=
  (r.eventid, r.heatnumber, r.athleteid)

/-! ## The heat-page scraper's discovery traversal -/

/-- What one fetched result page contributes to discovery: HTTP success,
the non-heatSelect event options and the heatSelect options. -/
structure DiscPage where
  ok : Bool
  eventOptions : List (Nat × String)
  heatOptions : List Nat
deriving DecidableEq

/-- The site as seen by one scrape run: the result page for a
`(SessionId, EventId)` query, the program-page event titles and session
dates, the result-table rows per `(SessionId, EventId, HeatId)`, and the
swimmer-page birth-year fetch. -/
structure PagesSite where
  page : Nat → Nat → DiscPage
  titles : List ((Nat × Nat) × String)
  sessionDates : List (Nat × Option Nat)
  heatRows : Nat → Nat → Nat → List RawRow
  fetchBY : Int → Option Nat

/-- Traversal state of `scrape_and_import`
(`scrape_musz_result_pages.py` lines 299-556): database, dedup set,
discovered `(session, event)` pairs, created session rows, loop counters,
and the discovery fetches issued (for the termination claims). -/
structure TravState where
  meetId : Int
  db : ScrapeDb
  seen : List (Nat × Nat × Int)
  seenEvents : List (Nat × Nat)
  sessionRows : List (Nat × Nat)
  sessionId : Nat
  nextEventId : Nat
  probed : List (Nat × Nat)
deriving DecidableEq

def initTravState (mid : Int) : TravState :=
  ⟨mid, emptyScrapeDb, [], [], [], 1, 1, []⟩

def minD (l : List Nat) (dflt : Nat) : Nat :=
  match l with
  | [] => dflt
  | x :: xs => xs.foldl Nat.min x

def maxD (l : List Nat) (dflt : Nat) : Nat :=
  match l with
  | [] => dflt
  | x :: xs => xs.foldl Nat.max x

def lookupTitle (site : PagesSite) (k : Nat × Nat) (dflt : String) : String :=
  (((site.titles.find? (fun p => p.1 == k)).map (fun p => p.2))).getD dflt

/-- Hungarian stroke keywords in source dict order. -/
def strokeMapL : List (List Char × String) :=
  [("pillangó".data, "FLY"), ("hát".data, "BACK"), ("mell".data, "BREAST"),
   ("gyors".data, "FREE"), ("vegyes".data, "IM"), ("gyorsváltó".data, "FREE"),
   ("vegyesváltó".data, "IM")]

def genderMapL : List (List Char × String) :=
  [("férfi".data, "M"), ("női".data, "F"), ("mix".data, "X")]

/-- First `(\d+)\s*m` match of the lowered title. -/
def findNumBeforeM : List Char → Option Nat
  | [] => none
  | c :: rest =>
    let ds := (c :: rest).takeWhile isDigitC
    if ds ≠ [] then
      match (c :: rest).dropWhile isDigitC |>.dropWhile isSpaceC with
      | 'm' :: _ => some (digitsNat ds)
      | _ => findNumBeforeM rest
    else findNumBeforeM rest

/-- `_parse_event_title`: distance from the first `(\d+)\s*m`, stroke and
gender from the first matching keyword. -/
def parseEventTitle (t : String) : String × Nat × String :=
  let low := pyLower t.data
  let distance := (findNumBeforeM low).getD 0
  let stroke := (((strokeMapL.find? (fun p => isSubstring p.1 low)).map
    (fun p => p.2))).getD "FREE"
  let gender := (((genderMapL.find? (fun p => isSubstring p.1 low)).map
    (fun p => p.2))).getD "X"
  (stroke, distance, gender)

/-- Event processing inside the discovery loop (lines 383-551): create the
event row once per `(session, event)` pair, refetch the event page for its
heat list, and extract each heat's result table. -/
def travProcessEvent (site : PagesSite) (st : TravState) (evp : Nat × String) :
    TravState :=
  if (st.sessionId, evp.1) ∈ st.seenEvents then st else
  let title := lookupTitle site (st.sessionId, evp.1) evp.2
  let sdg := parseEventTitle title
  let evRowId := st.db.nextId
  let db := { st.db with
    events := st.db.events ++
      [⟨evRowId, st.meetId, sdg.1, sdg.2.1, "TIM", sdg.2.2⟩],
    nextId := st.db.nextId + 1 }
  let st := { st with db := db, seenEvents := (st.sessionId, evp.1) :: st.seenEvents }
  let epg := site.page st.sessionId evp.1
  if ¬ epg.ok then st else
  let heatIds := epg.heatOptions
  heatIds.foldl (fun s hid =>
    let heatnumber := if hid ≠ 0 then (heatIds.indexOf hid) + 1 else 1
    let ex := pagesExtractRows site.fetchBY evRowId heatnumber ⟨s.db, s.seen⟩
      (site.heatRows s.sessionId evp.1 hid)
    { s with db := ex.db, seen := ex.seen }) st

/-- Session-row creation (lines 373-381). -/
def travEnsureSession (site : PagesSite) (st : TravState) : TravState :=
  if st.sessionRows.any (fun p => p.1 == st.sessionId) then st
  else
    let sdate := (((site.sessionDates.find? (fun p => p.1 == st.sessionId)).map
      (fun p => p.2))).getD none
    let sid := st.db.nextId
    { st with
      db := { st.db with
        sessions := st.db.sessions ++ [⟨sid, st.meetId, st.sessionId, sdate⟩],
        nextId := st.db.nextId + 1 },
      sessionRows := st.sessionRows ++ [(st.sessionId, sid)] }

/-- The discovery loop (`while True:` at lines 309-556), fuel-bounded.
When the current session's heat selector is empty the source probes
session `n+1` (lines 342-361) but then reaches the unconditional `break`
at line 362 whether or not that probe found heats; both arms of the model
return the same state to mirror this. -/
def travLoop (site : PagesSite) : Nat → TravState → TravState
  | 0, st => st
  | fuel + 1, st =>
    let pg := site.page st.sessionId st.nextEventId
    let st1 := { st with probed := st.probed ++ [(st.sessionId, st.nextEventId)] }
    if ¬ pg.ok then st1
    else if pg.heatOptions.isEmpty then
      let nextEv := minD ((site.titles.filter
        (fun p => p.1.1 == st1.sessionId + 1)).map (fun p => p.1.2))
        (st1.nextEventId + 1)
      let pg2 := site.page (st1.sessionId + 1) nextEv
      let st2 := { st1 with probed := st1.probed ++ [(st1.sessionId + 1, nextEv)] }
      if pg2.ok ∧ pg2.heatOptions.isEmpty then st2 else st2
    else
      let evs :=
        if pg.eventOptions.isEmpty then
          ((site.titles.filter (fun p => p.1.1 == st1.sessionId)).map
            (fun p => (p.1.2, lookupTitle site (st1.sessionId, p.1.2) ""))).mergeSort
            (fun p q => decide (p.1 ≤ q.1))
        else pg.eventOptions.mergeSort (fun p q => decide (p.1 ≤ q.1))
      if evs.isEmpty then st1
      else
        let st2 := travEnsureSession site st1
        let st3 := evs.foldl (travProcessEvent site) st2
        travLoop site fuel
          { st3 with nextEventId := maxD (evs.map (fun p => p.1)) 0 + 1,
                     sessionId := st3.sessionId + 1 }

/-! ## Status write-back of the adapter drivers -/

/-- The `importedlenexfile.status` values written by the core adapters. -/
inductive RecStatus
  | processed
  | processing_failed
  | scraped
  | scrape_failed
deriving DecidableEq

/-- Outcome of `import_lenex_file` as observed by `import_lenex.main`. -/
inductive LenexRunOutcome
  | ok
  | returnedFalse
  | raisedValueError
  | raisedOther
deriving DecidableEq

/-- `import_lenex.main` (lines 341-361): status written per outcome. -/
def lenexMainWriteback : LenexRunOutcome → RecStatus
  | .ok => .processed
  | .returnedFalse => .processing_failed
  | .raisedValueError => .processing_failed
  | .raisedOther => .processing_failed

/-- Outcome of one competition's scrape as observed by a driver. -/
inductive ScrapeRunOutcome
  | success
  | failure
deriving DecidableEq

/-- `scrape_musz_results.__main__` (lines 456-487): `scraped` on success,
`scrape_failed` on a `False` return or an exception. -/
def resultsMainWriteback : ScrapeRunOutcome → RecStatus
  | .success => .scraped
  | .failure => .scrape_failed

/-- `scrape_musz_result_pages.__main__` (lines 613-637):
`scrape_and_import` swallows every exception internally and returns no
success signal, and the driver then runs `UPDATE ... SET status='scraped'`
unconditionally for every non-dry run — both outcome arms write the same
status. -/
def pagesMainWriteback : ScrapeRunOutcome → RecStatus
  | .success => .scraped
  | .failure => .scraped

/-! ## The structured (LENEX) adapter

The XML element tree, attributes as optional strings exactly as
`Element.get` returns them. -/

structure SwimStyleElem where
  stroke : Option String
  distance : Option String
deriving DecidableEq

structure HeatElem where
  heatid : Option String
  number : Option String
deriving DecidableEq

structure EventElem where
  eventid : Option String
  number : Option String
  gender : Option String
  round : Option String
  swimstyle : Option SwimStyleElem
  heats : Option (List HeatElem)
deriving DecidableEq

structure SessionElem where
  number : Option String
  date : Option String
  events : Option (List EventElem)
deriving DecidableEq

structure SplitElem where
  distance : Option String
  swimtime : Option String
deriving DecidableEq

structure ResultElem where
  eventid : Option String
  heatid : Option String
  lane : Option String
  swimtime : Option String
  status : Option String
  disqualified : Option String
  place : Option String
  rank : Option String
  reactiontime : Option String
  splits : Option (List SplitElem)
deriving DecidableEq

structure AthleteElem where
  athleteid : Option String
  firstname : Option String
  lastname : Option String
  birthdate : Option String
  gender : Option String
  results : Option (List ResultElem)
deriving DecidableEq

structure ClubElem where
  code : Option String
  name : Option String
  nation : Option String
  athletes : Option (List AthleteElem)
deriving DecidableEq

structure MeetElem where
  name : Option String
  course : Option String
  sessions : Option (List SessionElem)
  clubs : Option (List ClubElem)
deriving DecidableEq

/-! Rows written by the structured adapter. -/

structure MeetRow where
  id : Int
  name : Option String
  startdate : Option Nat
  enddate : Option Nat
  course : Option String
  datasource : String
deriving DecidableEq

structure LenexSessionRow where
  id : Nat
  meetid : Int
  sessionnumber : Option Int
  sessiondate : Option Nat
deriving DecidableEq

structure LenexEventRow where
  id : Nat
  meetid : Int
  stroke : String
  distance : Nat
  round : Option String
  gender : String
deriving DecidableEq

structure LenexHeatRow where
  id : Nat
  eventid : Nat
  sessionid : Nat
  heatnumber : Option Int
deriving DecidableEq

structure AffRow where
  athleteid : Int
  clubid : Nat
  validfrom : Option Nat
  validto : Option Nat
  sourcemeetid : Int
deriving DecidableEq

structure LenexResultRow where
  id : Nat
  athleteid : Int
  heatid : Nat
  clubid : Nat
  lane : Option Int
  timehundredths : Option Int
  status : Option String
  rank : Option Int
  reactiontime : Option Int
deriving DecidableEq

structure LenexDb where
  meets : List MeetRow
  sessions : List LenexSessionRow
  events : List LenexEventRow
  heats : List LenexHeatRow
  clubs : List ClubRow
  athletes : List AthleteRow
  affiliations : List AffRow
  results : List LenexResultRow
  splits : List (Nat × Nat × Int)
  nextId : Nat
deriving DecidableEq

/-- Python `a or b` on two optional strings (missing and empty are falsy;
the second operand is returned as-is). -/
def pyOr (a b : Option String) : Option String :=
  match a with
  | some s => if s = "" then b else some s
  | none => b

/-- Python `a or dflt` collapsing to a plain string. -/
def orElseStr (o : Option String) (dflt : String) : String :=
  match o with
  | some s => if s = "" then dflt else s
  | none => dflt

def optNonempty (o : Option String) : Option String :=
  match o with
  | some s => if s = "" then none else some s
  | none => none

/-- `%Y-%m-%d` on exactly ten characters. -/
def dateYmd (t : List Char) : Option Nat :=
  match t with
  | [y1, y2, y3, y4, s1, m1, m2, s2, d1, d2] =>
    if s1 = '-' ∧ s2 = '-' ∧ [y1, y2, y3, y4, m1, m2, d1, d2].all isDigitC then
      let m := digitsNat [m1, m2]
      let d := digitsNat [d1, d2]
      if 1 ≤ m ∧ m ≤ 12 ∧ 1 ≤ d ∧ d ≤ 31 then
        some (digitsNat [y1, y2, y3, y4] * 10000 + m * 100 + d)
      else none
    else none
  | _ => none

/-- `%d<sep>%m<sep>%Y` on exactly ten characters. -/
def dateDmy (sep : Char) (t : List Char) : Option Nat :=
  match t with
  | [d1, d2, s1, m1, m2, s2, y1, y2, y3, y4] =>
    if s1 = sep ∧ s2 = sep ∧ [d1, d2, m1, m2, y1, y2, y3, y4].all isDigitC then
      let m := digitsNat [m1, m2]
      let d := digitsNat [d1, d2]
      if 1 ≤ m ∧ m ≤ 12 ∧ 1 ≤ d ∧ d ≤ 31 then
        some (digitsNat [y1, y2, y3, y4] * 10000 + m * 100 + d)
      else none
    else none
  | _ => none

/-- `_parse_date` (`import_lenex.py` lines 64-72): try `%Y-%m-%d`,
`%d.%m.%Y`, `%d/%m/%Y` on the first ten stripped characters.  Zero-padded
fields as emitted by the site; day-of-month validity approximated by
`1..31`. -/
def parseDateL (s : String) : Option Nat :=
  if s = "" then none
  else
    let t := (pyStrip s.data).take 10
    match dateYmd t with
    | some d => some d
    | none =>
      match dateDmy '.' t with
      | some d => some d
      | none => dateDmy '/' t

def parseDateOpt : Option String → Option Nat
  | none => none
  | some s => parseDateL s

/-- `(x or 'X')[:1].upper()`. -/
def genderOf (o : Option String) : String :=
  String.mk (pyUpper ((orElseStr o "X").data.take 1))

/-- `int(x) if x and x.isdigit() else None`. -/
def digitsInt (o : Option String) : Option Int :=
  match o with
  | some s =>
    if s ≠ "" ∧ s.data.all isDigitC then some ((digitsNat s.data : Int)) else none
  | none => none

/-- `lx_meet` upsert of the structured adapter (lines 113-123): insert
with null dates, on conflict COALESCE name/course against the stored row
(incoming value wins when non-null) and overwrite datasource. -/
def upsertLxMeet (db : LenexDb) (mid : Int) (nm course : Option String) : LenexDb :=
  if db.meets.any (fun m => m.id == mid) then
    { db with meets := db.meets.map (fun m =>
        if m.id == mid then
          { m with name := nm <|> m.name, course := course <|> m.course,
                   datasource := "lenex" }
        else m) }
  else
    { db with meets := db.meets ++ [⟨mid, nm, none, none, course, "lenex"⟩] }

/-- The adapter's per-document key maps (`eventid_to_lx_event` etc.),
keyed by the raw attribute values; later assignments shadow earlier ones. -/
structure LocalMaps where
  sessionMap : List (Option String × Nat)
  eventMap : List (Option String × Nat)
  heatMap : List (Option String × Nat)
deriving DecidableEq

def emptyMaps : LocalMaps := ⟨[], [], []⟩

def dictGet (m : List (Option String × Nat)) (k : Option String) : Option Nat :=
  (m.find? (fun p => p.1 == k)).map (fun p => p.2)

def processHeat (sessRowId evRowId : Nat) (acc : LenexDb × LocalMaps)
    (h : HeatElem) : LenexDb × LocalMaps :=
  let db := acc.1
  let key := pyOr h.heatid h.number
  let row : LenexHeatRow := ⟨db.nextId, evRowId, sessRowId, digitsInt h.number⟩
  ({ db with heats := db.heats ++ [row], nextId := db.nextId + 1 },
   { acc.2 with heatMap := (key, db.nextId) :: acc.2.heatMap })

def processEvent (mid : Int) (sessRowId : Nat) (acc : LenexDb × LocalMaps)
    (ev : EventElem) : LenexDb × LocalMaps :=
  let key := pyOr ev.eventid ev.number
  let gender := genderOf ev.gender
  let stroke := match ev.swimstyle with
    | some sw => String.mk (pyUpper (orElseStr sw.stroke "FREE").data)
    | none => "FREE"
  let distance : Nat := match ev.swimstyle with
    | some sw =>
      match sw.distance with
      | some d => if d ≠ "" ∧ d.data.all isDigitC then digitsNat d.data else 0
      | none => 0
    | none => 0
  let db := acc.1
  let evRowId := db.nextId
  let db := { db with
    events := db.events ++ [⟨evRowId, mid, stroke, distance, optNonempty ev.round, gender⟩],
    nextId := db.nextId + 1 }
  let acc2 := (db, { acc.2 with eventMap := (key, evRowId) :: acc.2.eventMap })
  (ev.heats.getD []).foldl (processHeat sessRowId evRowId) acc2

def processSession (mid : Int) (acc : LenexDb × LocalMaps) (sess : SessionElem) :
    LenexDb × LocalMaps :=
  let db := acc.1
  let sessRowId := db.nextId
  let row : LenexSessionRow :=
    ⟨sessRowId, mid, digitsInt sess.number, parseDateOpt sess.date⟩
  let db := { db with sessions := db.sessions ++ [row], nextId := db.nextId + 1 }
  let acc2 := (db, { acc.2 with sessionMap := (sess.number, sessRowId) :: acc.2.sessionMap })
  (sess.events.getD []).foldl (processEvent mid sessRowId) acc2

def minOpt (l : List Nat) : Option Nat :=
  match l with
  | [] => none
  | x :: xs => some (xs.foldl Nat.min x)

def maxOpt (l : List Nat) : Option Nat :=
  match l with
  | [] => none
  | x :: xs => some (xs.foldl Nat.max x)

/-- Unconditional meet date repair (lines 181-186): min/max of this
meet's session dates; SQL MIN/MAX ignore nulls and give null on empty. -/
def repairMeetDates (db : LenexDb) (mid : Int) : LenexDb :=
  let ds := (db.sessions.filter (fun s => s.meetid == mid)).filterMap
    (fun s => s.sessiondate)
  { db with meets := db.meets.map (fun m =>
      if m.id == mid then { m with startdate := minOpt ds, enddate := maxOpt ds }
      else m) }

inductive ImportOutcome
  | ok
  | badClub
  | badAthlete
deriving DecidableEq

/-- `club_code = _attr(code) or _attr(name, '')[:32]` (line 197): with
both attributes missing Python dies on `None[:32]` (`TypeError`), the
`none` case here. -/
def clubCodeOfElem (c : ClubElem) : Option (List Char) :=
  match optNonempty c.code with
  | some s => some s.data
  | none =>
    match c.name with
    | some n => some (n.data.take 32)
    | none => none

/-- Club resolve-or-create of the structured adapter (lines 201-212). -/
def resolveClubLenex (db : LenexDb) (code nm : List Char) (nation : Option String) :
    Nat × LenexDb :=
  match db.clubs.find? (fun c => c.code == code) with
  | some c => (c.id, db)
  | none =>
    (db.nextId,
     { db with clubs := db.clubs ++ [⟨db.nextId, code, nm, nation⟩],
               nextId := db.nextId + 1 })

/-- Affiliation insert guarded by `WHERE NOT EXISTS` on the
`(athleteid, clubid, sourcemeetid)` triple (lines 254-263). -/
def insertAffIfAbsent (db : LenexDb) (aid : Int) (cid : Nat) (vf : Option Nat)
    (mid : Int) : LenexDb :=
  if db.affiliations.any (fun a =>
      a.athleteid == aid && a.clubid == cid && a.sourcemeetid == mid) then db
  else { db with affiliations := db.affiliations ++ [⟨aid, cid, vf, none, mid⟩] }

structure ImportCfg where
  meetId : Int
  maps : LocalMaps
deriving DecidableEq

def lenexParseOpt : Option String → Option Int
  | none => none
  | some s => lenexParseSwimtimeL s.data

/-- Result status (lines 283-285): explicit status/disqualified attribute
truncated to 10 characters, else inferred from special swimtime tokens,
stored as null when empty. -/
def lenexStatusOf (res : ResultElem) : Option String :=
  let st0 := orElseStr (pyOr res.status res.disqualified) ""
  let st1 := String.mk (st0.data.take 10)
  let st2 :=
    if st1 = "" then
      match res.swimtime with
      | some sw =>
        if sw ≠ "" ∧ pyUpper sw.data ∈
            [['D', 'Q'], ['D', 'S', 'Q'], ['D', 'N', 'S'], ['S', 'C', 'R']] then
          String.mk ((pyUpper sw.data).take 10)
        else ""
      | none => ""
    else st1
  if st2 = "" then none else some st2

/-- One RESULT element (lines 269-310): both keys must be present and
resolvable through this document's maps, else the result is silently
skipped; splits are inserted only when both fields parse.  (Row ids are
positive here, so Python's `0`-falsy guard on them cannot fire.) -/
def processResult (cfg : ImportCfg) (aid : Int) (cid : Nat) (db : LenexDb)
    (res : ResultElem) : LenexDb :=
  match optNonempty res.eventid, optNonempty res.heatid with
  | some evk, some htk =>
    match dictGet cfg.maps.eventMap (some evk), dictGet cfg.maps.heatMap (some htk) with
    | some _, some htId =>
      let lane := digitsInt res.lane
      let timeHund := lenexParseOpt res.swimtime
      let status := lenexStatusOf res
      let rank := digitsInt (pyOr res.place res.rank)
      let reaction := match optNonempty res.reactiontime with
        | some r => lenexParseSwimtimeL r.data
        | none => none
      let resultId := db.nextId
      let db := { db with
        results := db.results ++
          [⟨resultId, aid, htId, cid, lane, timeHund, status, rank, reaction⟩],
        nextId := db.nextId + 1 }
      (res.splits.getD []).foldl (fun d sp =>
        let dist : Option Nat := match sp.distance with
          | some s => if s ≠ "" ∧ s.data.all isDigitC then some (digitsNat s.data) else none
          | none => none
        match dist, lenexParseOpt sp.swimtime with
        | some dv, some tv =>
          if resultId ≠ 0 then { d with splits := d.splits ++ [(resultId, dv, tv)] }
          else d
        | _, _ => d) db
    | _, _ => db
  | _, _ => db

def athleteIdVal (o : Option String) : Option Int :=
  match optNonempty o with
  | some s => pyInt s.data
  | none => none

def athleteBad (a : AthleteElem) : Bool := (athleteIdVal a.athleteid).isNone

/-- One ATHLETE element (lines 218-310): a missing or non-numeric
athlete id raises before any write for this athlete (`false`); otherwise
upsert, conditional affiliation, then this athlete's results. -/
def processAthlete (cfg : ImportCfg) (cid : Nat) (db : LenexDb) (a : AthleteElem) :
    LenexDb × Bool :=
  let fn := (a.firstname).getD ""
  let ln := (a.lastname).getD ""
  let birth := parseDateOpt a.birthdate
  let g := genderOf a.gender
  match athleteIdVal a.athleteid with
  | none => (db, false)
  | some aid =>
    let db := { db with
      athletes := upsertLxAthlete db.athletes aid (some fn) (some ln) birth (some g) }
    let db :=
      if cid ≠ 0 ∧ cfg.meetId ≠ 0 then insertAffIfAbsent db aid cid birth cfg.meetId
      else db
    ((a.results.getD []).foldl (processResult cfg aid cid) db, true)

def processAthletesL (cfg : ImportCfg) (cid : Nat) (db : LenexDb) :
    List AthleteElem → LenexDb × ImportOutcome
  | [] => (db, .ok)
  | a :: rest =>
    match processAthlete cfg cid db a with
    | (db', true) => processAthletesL cfg cid db' rest
    | (db', false) => (db', .badAthlete)

def processClub (cfg : ImportCfg) (db : LenexDb) (c : ClubElem) :
    LenexDb × ImportOutcome :=
  match clubCodeOfElem c with
  | none => (db, .badClub)
  | some code =>
    let nm := match optNonempty c.name with
      | some n => n.data
      | none => code
    let nation :=
      let n3 := ((c.nation).getD "").data.take 3
      if n3 = [] then none else some (String.mk n3)
    let rc := resolveClubLenex db code nm nation
    processAthletesL cfg rc.1 rc.2 (c.athletes.getD [])

def processClubsL (cfg : ImportCfg) (db : LenexDb) :
    List ClubElem → LenexDb × ImportOutcome
  | [] => (db, .ok)
  | c :: rest =>
    match processClub cfg db c with
    | (db', .ok) => processClubsL cfg db' rest
    | (db', out) => (db', out)

/-- `import_lenex_file` (lines 75-313) from the meet element on (the
numeric meet id gate and the XML/root/MEETS checks fail before any
write): meet upsert, sessions/events/heats building the local key maps,
unconditional date repair, then clubs with athletes, affiliations,
results and splits.  Raising out of the function keeps every statement
already executed, matching `main`'s commit on the failure path. -/
def importLenexFile (db : LenexDb) (mid : Int) (meet : MeetElem) :
    LenexDb × ImportOutcome :=
  let db := upsertLxMeet db mid (some (orElseStr meet.name "Unknown"))
    (some (orElseStr meet.course "LCM"))
  let acc := (meet.sessions.getD []).foldl (processSession mid) (db, emptyMaps)
  let db := repairMeetDates acc.1 mid
  match meet.clubs with
  | none => (db, .ok)
  | some cs => processClubsL ⟨mid, acc.2⟩ db cs

/-! Truncation of a document at its first bad athlete, in processing
order: clubs before the failing club unchanged, the failing club cut to
the athletes before the first bad one, later clubs dropped. -/

def clubHasBad (c : ClubElem) : Bool := (c.athletes.getD []).any athleteBad

def truncClubs : List ClubElem → List ClubElem
  | [] => []
  | c :: rest =>
    if clubHasBad c then
      [{ c with
          athletes := some ((c.athletes.getD []).takeWhile (fun a => !athleteBad a)) }]
    else c :: truncClubs rest

def clubWellformed (c : ClubElem) : Bool := (clubCodeOfElem c).isSome

/-! ## Concrete fixtures used by the claim theorems -/

/-- A heat-page table row that passes every guard. -/
def demoRow : RawRow :=
  ⟨false, "1", "1:02.50", true, some 77, "Nora", "Zombori", "FTC", some 2011,
   none, none, []⟩

/-- Two rows whose name cells carry no club text. -/
def demoNoClubRow1 : RawRow :=
  ⟨false, "1", "1:02.50", true, some 77, "A", "B", "", none, none, none, []⟩

def demoNoClubRow2 : RawRow :=
  ⟨false, "2", "1:03.50", true, some 78, "C", "D", "", none, none, none, []⟩

/-- A row whose time cell parses to nothing and carries no status token. -/
def demoBadRow : RawRow :=
  ⟨false, "1", "xyz", true, some 79, "E", "F", "FTC", none, none, none, []⟩

/-- A competition whose session 1 and session 2 result pages both have
empty heat selectors. -/
def siteBothEmpty : PagesSite :=
  ⟨fun _ _ => ⟨true, [], []⟩, [], [], fun _ _ _ => [], fun _ => none⟩

/-- A competition whose session 1 page has an empty heat selector but
whose session 2 page has heats. -/
def siteSecondHasHeats : PagesSite :=
  ⟨fun s _ => if s = 1 then ⟨true, [], []⟩ else ⟨true, [(15, "200 m gyors")], [1, 2]⟩,
   [], [], fun _ _ _ => [], fun _ => none⟩

def emptyLenexDb : LenexDb := ⟨[], [], [], [], [], [], [], [], [], 1⟩

/-- A document whose second club contains an athlete without an id. -/
def demoAthleteOk : AthleteElem :=
  ⟨some "77", some "Anna", some "Kis", some "2010-01-01", some "F",
   some [⟨some "1", some "1", some "4", some "1:02.50", none, none, some "1",
          none, none, some [⟨some "50", some "30.00"⟩]⟩]⟩

def demoAthleteBad : AthleteElem :=
  ⟨none, some "Bob", some "Badid", none, some "M", none⟩

def demoClubs : List ClubElem :=
  [⟨some "FTC", some "Ferencvaros", some "HUN", some [demoAthleteOk]⟩,
   ⟨some "XYZ", some "Other Club", none, some [demoAthleteOk, demoAthleteBad]⟩]

def demoMeet : MeetElem :=
  ⟨some "Demo Meet", some "LCM",
   some [⟨some "1", some "2023-01-28",
          some [⟨some "1", none, some "M", none, some ⟨some "FREE", some "100"⟩,
                 some [⟨some "1", some "1"⟩]⟩]⟩],
   some demoClubs⟩

/-! ## Character-class and digit-string lemmas -/

lemma digitCh_mem (n : Nat) : digitCh n ∈ digitChars := by
  unfold digitCh; split <;> decide

lemma pad2_shape (n : Nat) :
    ∃ a b, pad2 n = [a, b] ∧ a ∈ digitChars ∧ b ∈ digitChars := by
  unfold pad2; split
  · exact ⟨'0', digitCh n, rfl, by decide, digitCh_mem n⟩
  · exact ⟨digitCh (n / 10), digitCh (n % 10), rfl, digitCh_mem _, digitCh_mem _⟩

lemma pad2_mem {c : Char} {n : Nat} (h : c ∈ pad2 n) : c ∈ digitChars := by
  obtain ⟨a, b, hab, ha, hb⟩ := pad2_shape n
  rw [hab] at h
  rcases List.mem_cons.mp h with rfl | h
  · exact ha
  · rcases List.mem_cons.mp h with rfl | h
    · exact hb
    · simp at h

lemma pad2_length (n : Nat) : (pad2 n).length = 2 := by
  obtain ⟨a, b, hab, -, -⟩ := pad2_shape n
  rw [hab]; rfl

lemma digitChars_isDigit {c : Char} (h : c ∈ digitChars) : isDigitC c = true := by
  fin_cases h <;> decide

lemma digitChars_isSpace {c : Char} (h : c ∈ digitChars) : isSpaceC c = false := by
  fin_cases h <;> decide

lemma digitChars_ne {c d : Char} (h : c ∈ digitChars) (hd : isDigitC d = false) :
    c ≠ d := by
  intro he
  have h1 : isDigitC d = true := he ▸ digitChars_isDigit h
  rw [h1] at hd
  simp at hd

lemma digitChars_beq_false {c d : Char} (h : c ∈ digitChars)
    (hd : isDigitC d = false) : (c == d) = false := by
  rw [beq_eq_false_iff_ne]
  exact digitChars_ne h hd

lemma digitVal_digitCh {n : Nat} (h : n ≤ 9) : digitVal (digitCh n) = n := by
  interval_cases n <;> decide

/-- The two digits of `pad2 n` together with their place value. -/
lemma pad2_spec {n : Nat} (h : n ≤ 99) :
    ∃ a b, pad2 n = [a, b] ∧ a ∈ digitChars ∧ b ∈ digitChars ∧
      10 * digitVal a + digitVal b = n := by
  unfold pad2; split
  next hlt =>
    refine ⟨'0', digitCh n, rfl, by decide, digitCh_mem n, ?_⟩
    rw [digitVal_digitCh (by omega)]
    have h0 : digitVal '0' = 0 := rfl
    omega
  next hge =>
    refine ⟨digitCh (n / 10), digitCh (n % 10), rfl, digitCh_mem _, digitCh_mem _, ?_⟩
    rw [digitVal_digitCh (by omega), digitVal_digitCh (by omega)]
    omega

lemma dropWhile_eq_self_of {p : Char → Bool} {l : List Char}
    (h : ∀ c ∈ l, p c = false) : l.dropWhile p = l := by
  cases l with
  | nil => rfl
  | cons a as =>
    rw [List.dropWhile_cons, h a (List.mem_cons_self a as)]
    simp

lemma pyStrip_eq_self {l : List Char} (h : ∀ c ∈ l, isSpaceC c = false) :
    pyStrip l = l := by
  unfold pyStrip
  rw [dropWhile_eq_self_of h,
      dropWhile_eq_self_of (fun c hc => h c (List.mem_reverse.mp hc)),
      List.reverse_reverse]

lemma pyReplace_eq_self {a b : Char} {l : List Char} (h : ∀ c ∈ l, c ≠ a) :
    pyReplace a b l = l := by
  unfold pyReplace
  induction l with
  | nil => rfl
  | cons c rest ih =>
    simp only [List.map_cons]
    rw [if_neg (h c (List.mem_cons_self c rest)),
        ih (fun x hx => h x (List.mem_cons_of_mem _ hx))]

lemma splitOnC_of_not_mem {sep : Char} {l : List Char} (h : sep ∉ l) :
    splitOnC sep l = [l] := by
  induction l with
  | nil => rfl
  | cons c rest ih =>
    have hc : ¬ c = sep := by rintro rfl; exact h (List.mem_cons_self c rest)
    rw [splitOnC, if_neg hc, ih (fun hm => h (List.mem_cons_of_mem _ hm))]

lemma splitOnC_append {sep : Char} {a : List Char} (b : List Char) (h : sep ∉ a) :
    splitOnC sep (a ++ sep :: b) = a :: splitOnC sep b := by
  induction a with
  | nil => simp [splitOnC]
  | cons c rest ih =>
    have hc : ¬ c = sep := by rintro rfl; exact h (List.mem_cons_self c rest)
    rw [List.cons_append, splitOnC, if_neg hc,
        ih (fun hm => h (List.mem_cons_of_mem _ hm))]

lemma take_len_append {α : Type} (a b : List α) : (a ++ b).take a.length = a := by
  induction a with
  | nil => rfl
  | cons c rest ih => simp [List.take_cons, ih]

lemma digitsVal_pad2 {n : Nat} (h : n ≤ 99) : digitsVal (pad2 n) = some n := by
  obtain ⟨a, b, hab, ha, hb, hval⟩ := pad2_spec h
  rw [hab]
  unfold digitsVal
  rw [if_pos ⟨by simp, by simp [digitChars_isDigit ha, digitChars_isDigit hb]⟩]
  simp only [List.foldl_cons, List.foldl_nil, Option.some.injEq]
  omega

lemma pyInt_digits {l : List Char} (hne : l ≠ []) (hd : ∀ c ∈ l, c ∈ digitChars) :
    pyInt l = (digitsVal l).map (fun n => (n : Int)) := by
  unfold pyInt
  rw [pyStrip_eq_self (fun c hc => digitChars_isSpace (hd c hc))]
  cases l with
  | nil => exact absurd rfl hne
  | cons c rest =>
    have h1 : ¬ c = '-' := digitChars_ne (hd c (List.mem_cons_self c rest)) (by decide)
    have h2 : ¬ c = '+' := digitChars_ne (hd c (List.mem_cons_self c rest)) (by decide)
    simp only [if_neg h1, if_neg h2]

lemma pyInt_pad2 {n : Nat} (h : n ≤ 99) : pyInt (pad2 n) = some (n : Int) := by
  obtain ⟨a, b, hab, -, -⟩ := pad2_shape n
  rw [pyInt_digits (by rw [hab]; simp) (fun c hc => pad2_mem hc), digitsVal_pad2 h]
  rfl

/-! ## Round-trip lemmas for the formatted strings -/

/-- Every character of a formatted `MM:SS.hh` body is a digit, `:` or `.`. -/
lemma mmss_mem {c : Char} {x y z : Nat}
    (hc : c ∈ pad2 x ++ ':' :: (pad2 y ++ '.' :: pad2 z)) :
    c ∈ digitChars ∨ c = ':' ∨ c = '.' := by
  simp only [List.mem_append, List.mem_cons] at hc
  rcases hc with h | rfl | h | rfl | h
  · exact Or.inl (pad2_mem h)
  · exact Or.inr (Or.inl rfl)
  · exact Or.inl (pad2_mem h)
  · exact Or.inr (Or.inr rfl)
  · exact Or.inl (pad2_mem h)

lemma mmss_no_comma {c : Char} {x y z : Nat}
    (hc : c ∈ pad2 x ++ ':' :: (pad2 y ++ '.' :: pad2 z)) : c ≠ ',' := by
  rcases mmss_mem hc with h | rfl | rfl
  · exact digitChars_ne h (by decide)
  · decide
  · decide

lemma mmss_no_space {c : Char} {x y z : Nat}
    (hc : c ∈ pad2 x ++ ':' :: (pad2 y ++ '.' :: pad2 z)) : isSpaceC c = false := by
  rcases mmss_mem hc with h | rfl | rfl
  · exact digitChars_isSpace h
  · decide
  · decide

lemma not_null_token {l : List Char} {toks : List (List Char)}
    (ht : ∀ t ∈ toks, t.length ≤ 3) (hl : 4 ≤ l.length) :
    ¬ (l = [] ∨ pyUpper l ∈ toks) := by
  rintro (rfl | hm)
  · simp at hl
  · have h1 := ht _ hm
    have h2 : (pyUpper l).length = l.length := List.length_map _ _
    omega

lemma lenex_tok_len : ∀ t ∈ lenexNullTokens, t.length ≤ 3 := by decide

lemma scrape_tok_len : ∀ t ∈ scrapeNullTokens, t.length ≤ 3 := by decide

lemma fmtMMSS_length (h : Nat) : (fmtMMSS h).length = 8 := by
  simp [fmtMMSS, pad2_length]

lemma fmtHHMMSS_length (h : Nat) : (fmtHHMMSS h).length = 11 := by
  simp [fmtHHMMSS, fmtMMSS_length, pad2_length]

/-- `secPartVal` on a formatted `SS.hh` seconds part. -/
lemma secPartVal_pads {S HU : Nat} (hS : S ≤ 99) (hHU : HU ≤ 99) (hrs mins : Int) :
    secPartVal hrs mins (pad2 S ++ '.' :: pad2 HU) =
      some (hrs * 360000 + mins * 6000 + (S : Int) * 100 + (HU : Int)) := by
  have hdS : '.' ∉ pad2 S := fun hm => absurd (pad2_mem hm) (by decide)
  have hdHU : '.' ∉ pad2 HU := fun hm => absurd (pad2_mem hm) (by decide)
  have hany : (pad2 S ++ '.' :: pad2 HU).any (fun c => c == '.') = true := by
    simp [List.any_append]
  have hsplit : splitOnC '.' (pad2 S ++ '.' :: pad2 HU) = [pad2 S, pad2 HU] := by
    rw [splitOnC_append _ hdS, splitOnC_of_not_mem hdHU]
  have htake : ((pad2 HU ++ ['0', '0']).take 2) = pad2 HU := by
    rw [show (2 : Nat) = (pad2 HU).length from (pad2_length HU).symm, take_len_append]
  simp only [secPartVal, hany, if_true, hsplit, htake, pyInt_pad2 hS, pyInt_pad2 hHU]

/-- The structured parser's numeric body on a formatted `MM:SS.hh` string. -/
lemma lenexBody_mmss {M S HU : Nat} (hM : M ≤ 99) (hS : S ≤ 99) (hHU : HU ≤ 99) :
    lenexSwimtimeBody (pad2 M ++ ':' :: (pad2 S ++ '.' :: pad2 HU)) =
      some ((M : Int) * 6000 + (S : Int) * 100 + (HU : Int)) := by
  have hrepl : pyReplace ',' '.' (pad2 M ++ ':' :: (pad2 S ++ '.' :: pad2 HU)) =
      pad2 M ++ ':' :: (pad2 S ++ '.' :: pad2 HU) :=
    pyReplace_eq_self (fun c hc => mmss_no_comma hc)
  have hstrip : pyStrip (pad2 M ++ ':' :: (pad2 S ++ '.' :: pad2 HU)) =
      pad2 M ++ ':' :: (pad2 S ++ '.' :: pad2 HU) :=
    pyStrip_eq_self (fun c hc => mmss_no_space hc)
  have hcM : ':' ∉ pad2 M := fun hm => absurd (pad2_mem hm) (by decide)
  have hcT : ':' ∉ pad2 S ++ '.' :: pad2 HU := by
    intro hm
    simp only [List.mem_append, List.mem_cons] at hm
    rcases hm with h | h | h
    · exact absurd (pad2_mem h) (by decide)
    · exact absurd h (by decide)
    · exact absurd (pad2_mem h) (by decide)
  have hsplit : splitOnC ':' (pad2 M ++ ':' :: (pad2 S ++ '.' :: pad2 HU)) =
      [pad2 M, pad2 S ++ '.' :: pad2 HU] := by
    rw [splitOnC_append _ hcM, splitOnC_of_not_mem hcT]
  simp only [lenexSwimtimeBody, hrepl, hstrip, hsplit, pyInt_pad2 hM,
    secPartVal_pads hS hHU 0 (M : Int), Option.some.injEq]
  ring

/-- The structured parser's numeric body on a formatted `HH:MM:SS.hh` string. -/
lemma lenexBody_hhmmss {H M S HU : Nat} (hH : H ≤ 99) (hM : M ≤ 99) (hS : S ≤ 99)
    (hHU : HU ≤ 99) :
    lenexSwimtimeBody (pad2 H ++ ':' :: (pad2 M ++ ':' :: (pad2 S ++ '.' :: pad2 HU))) =
      some ((H : Int) * 360000 + (M : Int) * 6000 + (S : Int) * 100 + (HU : Int)) := by
  have hmem : ∀ c ∈ pad2 H ++ ':' :: (pad2 M ++ ':' :: (pad2 S ++ '.' :: pad2 HU)),
      c ∈ digitChars ∨ c = ':' ∨ c = '.' := by
    intro c hc
    simp only [List.mem_append, List.mem_cons] at hc
    rcases hc with h | rfl | h | rfl | h | rfl | h
    · exact Or.inl (pad2_mem h)
    · exact Or.inr (Or.inl rfl)
    · exact Or.inl (pad2_mem h)
    · exact Or.inr (Or.inl rfl)
    · exact Or.inl (pad2_mem h)
    · exact Or.inr (Or.inr rfl)
    · exact Or.inl (pad2_mem h)
  have hrepl : pyReplace ',' '.'
      (pad2 H ++ ':' :: (pad2 M ++ ':' :: (pad2 S ++ '.' :: pad2 HU))) =
      pad2 H ++ ':' :: (pad2 M ++ ':' :: (pad2 S ++ '.' :: pad2 HU)) := by
    refine pyReplace_eq_self (fun c hc => ?_)
    rcases hmem c hc with h | rfl | rfl
    · exact digitChars_ne h (by decide)
    · decide
    · decide
  have hstrip : pyStrip
      (pad2 H ++ ':' :: (pad2 M ++ ':' :: (pad2 S ++ '.' :: pad2 HU))) =
      pad2 H ++ ':' :: (pad2 M ++ ':' :: (pad2 S ++ '.' :: pad2 HU)) := by
    refine pyStrip_eq_self (fun c hc => ?_)
    rcases hmem c hc with h | rfl | rfl
    · exact digitChars_isSpace h
    · decide
    · decide
  have hcH : ':' ∉ pad2 H := fun hm => absurd (pad2_mem hm) (by decide)
  have hcM : ':' ∉ pad2 M := fun hm => absurd (pad2_mem hm) (by decide)
  have hcT : ':' ∉ pad2 S ++ '.' :: pad2 HU := by
    intro hm
    simp only [List.mem_append, List.mem_cons] at hm
    rcases hm with h | h | h
    · exact absurd (pad2_mem h) (by decide)
    · exact absurd h (by decide)
    · exact absurd (pad2_mem h) (by decide)
  have hsplit : splitOnC ':'
      (pad2 H ++ ':' :: (pad2 M ++ ':' :: (pad2 S ++ '.' :: pad2 HU))) =
      [pad2 H, pad2 M, pad2 S ++ '.' :: pad2 HU] := by
    rw [splitOnC_append _ hcH, splitOnC_append _ hcM, splitOnC_of_not_mem hcT]
  simp only [lenexSwimtimeBody, hrepl, hstrip, hsplit, pyInt_pad2 hH, pyInt_pad2 hM,
    secPartVal_pads hS hHU (H : Int) (M : Int)]

/-- The scrape fallback on a formatted `MM:SS.hh` string. -/
lemma scrapeFallback_mmss {M S HU : Nat} (hM : M ≤ 99) (hS : S ≤ 99) (hHU : HU ≤ 99) :
    scrapeFallback (pad2 M ++ ':' :: (pad2 S ++ '.' :: pad2 HU)) =
      some ((M : Int) * 6000 + (S : Int) * 100 + (HU : Int)) := by
  have hcM : ':' ∉ pad2 M := fun hm => absurd (pad2_mem hm) (by decide)
  have hcT : ':' ∉ pad2 S ++ '.' :: pad2 HU := by
    intro hm
    simp only [List.mem_append, List.mem_cons] at hm
    rcases hm with h | h | h
    · exact absurd (pad2_mem h) (by decide)
    · exact absurd h (by decide)
    · exact absurd (pad2_mem h) (by decide)
  have hsplit : splitOnC ':' (pad2 M ++ ':' :: (pad2 S ++ '.' :: pad2 HU)) =
      [pad2 M, pad2 S ++ '.' :: pad2 HU] := by
    rw [splitOnC_append _ hcM, splitOnC_of_not_mem hcT]
  simp only [scrapeFallback, hsplit, pyInt_pad2 hM,
    secPartVal_pads hS hHU 0 (M : Int), Option.some.injEq]
  ring

/-- The clock regex finds the whole string on a formatted `MM:SS.hh` body. -/
lemma clockFind_mmss {M S HU : Nat} (hM : M ≤ 99) (hS : S ≤ 99) (hHU : HU ≤ 99) :
    ∃ tl, clockFind (pad2 M ++ ':' :: (pad2 S ++ '.' :: pad2 HU)) =
      some (M, S, HU, tl) := by
  obtain ⟨a, b, hab, ha, hb, hva⟩ := pad2_spec hM
  obtain ⟨c, d, hcd, hc, hd, hvc⟩ := pad2_spec hS
  obtain ⟨e, f, hef, he, hf, hve⟩ := pad2_spec hHU
  refine ⟨[a, b, ':', c, d, '.', e, f], ?_⟩
  rw [hab, hcd, hef]
  simp only [List.cons_append, List.nil_append]
  simp only [clockFind, clockAt, clockTail, digitChars_isDigit ha,
    digitChars_isDigit hb, digitChars_isDigit hc, digitChars_isDigit hd,
    digitChars_isDigit he, digitChars_isDigit hf, beq_self_eq_true,
    Bool.and_self, Bool.and_true, Bool.true_and, if_true]
  rw [hva, hvc, hve]

/-- The clock regex on a formatted `HH:MM:SS.hh` body matches at the
`MM:SS.hh` suffix (the leading `HH:` is skipped, never read). -/
lemma clockFind_hhmmss {H M S HU : Nat} (hH : H ≤ 99) (hM : M ≤ 99) (hS : S ≤ 99)
    (hHU : HU ≤ 99) :
    ∃ tl, clockFind (pad2 H ++ ':' :: (pad2 M ++ ':' :: (pad2 S ++ '.' :: pad2 HU))) =
      some (M, S, HU, tl) := by
  obtain ⟨A, B, hAB, hA, hB, -⟩ := pad2_spec hH
  obtain ⟨a, b, hab, ha, hb, hva⟩ := pad2_spec hM
  obtain ⟨c, d, hcd, hc, hd, hvc⟩ := pad2_spec hS
  obtain ⟨e, f, hef, he, hf, hve⟩ := pad2_spec hHU
  refine ⟨[a, b, ':', c, d, '.', e, f], ?_⟩
  rw [hAB, hab, hcd, hef]
  simp only [List.cons_append, List.nil_append]
  have hBcolon : (B == ':') = false := digitChars_beq_false hB (by decide)
  have hcdot : ((':' : Char) == '.') = false := by decide
  have hcolon_digit : isDigitC ':' = false := by decide
  simp only [clockFind, clockAt, clockTail, digitChars_isDigit hA,
    digitChars_isDigit hB, digitChars_isDigit ha, digitChars_isDigit hb,
    digitChars_isDigit hc, digitChars_isDigit hd, digitChars_isDigit he,
    digitChars_isDigit hf, hBcolon, hcdot, hcolon_digit, beq_self_eq_true,
    Bool.and_self, Bool.and_true, Bool.true_and, Bool.false_and, Bool.and_false,
    if_true, if_false, Bool.false_eq_true]
  rw [hva, hvc, hve]

/-! ## Character classes of the `HH:MM:SS.hh` rendering -/

lemma hhmmss_mem {c : Char} {w x y z : Nat}
    (hc : c ∈ pad2 w ++ ':' :: (pad2 x ++ ':' :: (pad2 y ++ '.' :: pad2 z))) :
    c ∈ digitChars ∨ c = ':' ∨ c = '.' := by
  simp only [List.mem_append, List.mem_cons] at hc
  rcases hc with h | rfl | h | rfl | h | rfl | h
  · exact Or.inl (pad2_mem h)
  · exact Or.inr (Or.inl rfl)
  · exact Or.inl (pad2_mem h)
  · exact Or.inr (Or.inl rfl)
  · exact Or.inl (pad2_mem h)
  · exact Or.inr (Or.inr rfl)
  · exact Or.inl (pad2_mem h)

lemma hhmmss_no_comma {c : Char} {w x y z : Nat}
    (hc : c ∈ pad2 w ++ ':' :: (pad2 x ++ ':' :: (pad2 y ++ '.' :: pad2 z))) :
    c ≠ ',' := by
  rcases hhmmss_mem hc with h | rfl | rfl
  · exact digitChars_ne h (by decide)
  · decide
  · decide

lemma hhmmss_no_space {c : Char} {w x y z : Nat}
    (hc : c ∈ pad2 w ++ ':' :: (pad2 x ++ ':' :: (pad2 y ++ '.' :: pad2 z))) :
    isSpaceC c = false := by
  rcases hhmmss_mem hc with h | rfl | rfl
  · exact digitChars_isSpace h
  · decide
  · decide

/-! ## Round-trip theorems for each parser -/

lemma lenexParse_fmtMMSS {h : Nat} (hh : h < 360000) :
    lenexParseSwimtimeL (fmtMMSS h) = some (h : Int) := by
  have hM : h / 6000 ≤ 99 := by omega
  have hS : h % 6000 / 100 ≤ 99 := by omega
  have hHU : h % 100 ≤ 99 := by omega
  unfold lenexParseSwimtimeL fmtMMSS
  rw [if_neg (not_null_token lenex_tok_len
        (by rw [← fmtMMSS, fmtMMSS_length]; omega))]
  rw [lenexBody_mmss hM hS hHU]
  congr 1
  push_cast
  omega

lemma lenexParse_fmtHHMMSS {h : Nat} (hh : h < 8640000) :
    lenexParseSwimtimeL (fmtHHMMSS h) = some (h : Int) := by
  have hH : h / 360000 ≤ 99 := by omega
  have hM : h % 360000 / 6000 ≤ 99 := by omega
  have hS : h % 360000 % 6000 / 100 ≤ 99 := by omega
  have hHU : h % 360000 % 100 ≤ 99 := by omega
  unfold lenexParseSwimtimeL fmtHHMMSS fmtMMSS
  rw [if_neg (not_null_token lenex_tok_len
        (by rw [← fmtMMSS, ← fmtHHMMSS, fmtHHMMSS_length]; omega))]
  rw [lenexBody_hhmmss hH hM hS hHU]
  congr 1
  push_cast
  omega

lemma pagesParse_fmtMMSS {h : Nat} (hh : h < 360000) :
    pagesParseSwimtimeL (fmtMMSS h) = some (h : Int) := by
  have hM : h / 6000 ≤ 99 := by omega
  have hS : h % 6000 / 100 ≤ 99 := by omega
  have hHU : h % 100 ≤ 99 := by omega
  obtain ⟨tl, hcf⟩ := clockFind_mmss hM hS hHU
  have hrepl : pyReplace ',' '.'
      (pad2 (h / 6000) ++ ':' :: (pad2 (h % 6000 / 100) ++ '.' :: pad2 (h % 100))) =
      pad2 (h / 6000) ++ ':' :: (pad2 (h % 6000 / 100) ++ '.' :: pad2 (h % 100)) :=
    pyReplace_eq_self (fun c hc => mmss_no_comma hc)
  have hstrip : pyStrip
      (pad2 (h / 6000) ++ ':' :: (pad2 (h % 6000 / 100) ++ '.' :: pad2 (h % 100))) =
      pad2 (h / 6000) ++ ':' :: (pad2 (h % 6000 / 100) ++ '.' :: pad2 (h % 100)) :=
    pyStrip_eq_self (fun c hc => mmss_no_space hc)
  unfold pagesParseSwimtimeL fmtMMSS
  rw [if_neg (not_null_token scrape_tok_len
        (by rw [← fmtMMSS, fmtMMSS_length]; omega))]
  simp only [hrepl, hstrip, hcf]
  congr 1
  push_cast
  omega

lemma pagesParse_fmtHHMMSS {h : Nat} (hh : h < 360000) :
    pagesParseSwimtimeL (fmtHHMMSS h) = some (h : Int) := by
  have hH : h / 360000 ≤ 99 := by omega
  have hM : h % 360000 / 6000 ≤ 99 := by omega
  have hS : h % 360000 % 6000 / 100 ≤ 99 := by omega
  have hHU : h % 360000 % 100 ≤ 99 := by omega
  obtain ⟨tl, hcf⟩ := clockFind_hhmmss hH hM hS hHU
  have hrepl : pyReplace ',' '.'
      (pad2 (h / 360000) ++ ':' :: (pad2 (h % 360000 / 6000) ++ ':' ::
        (pad2 (h % 360000 % 6000 / 100) ++ '.' :: pad2 (h % 360000 % 100)))) =
      pad2 (h / 360000) ++ ':' :: (pad2 (h % 360000 / 6000) ++ ':' ::
        (pad2 (h % 360000 % 6000 / 100) ++ '.' :: pad2 (h % 360000 % 100))) :=
    pyReplace_eq_self (fun c hc => hhmmss_no_comma hc)
  have hstrip : pyStrip
      (pad2 (h / 360000) ++ ':' :: (pad2 (h % 360000 / 6000) ++ ':' ::
        (pad2 (h % 360000 % 6000 / 100) ++ '.' :: pad2 (h % 360000 % 100)))) =
      pad2 (h / 360000) ++ ':' :: (pad2 (h % 360000 / 6000) ++ ':' ::
        (pad2 (h % 360000 % 6000 / 100) ++ '.' :: pad2 (h % 360000 % 100))) :=
    pyStrip_eq_self (fun c hc => hhmmss_no_space hc)
  unfold pagesParseSwimtimeL fmtHHMMSS fmtMMSS
  rw [if_neg (not_null_token scrape_tok_len
        (by rw [← fmtMMSS, ← fmtHHMMSS, fmtHHMMSS_length]; omega))]
  simp only [hrepl, hstrip, hcf]
  congr 1
  push_cast
  omega

lemma resultsParse_fmtMMSS {h : Nat} (hh : h < 360000) :
    resultsParseSwimtimeL (fmtMMSS h) = some (h : Int) := by
  have hM : h / 6000 ≤ 99 := by omega
  have hS : h % 6000 / 100 ≤ 99 := by omega
  have hHU : h % 100 ≤ 99 := by omega
  have hrepl : pyReplace ',' '.'
      (pad2 (h / 6000) ++ ':' :: (pad2 (h % 6000 / 100) ++ '.' :: pad2 (h % 100))) =
      pad2 (h / 6000) ++ ':' :: (pad2 (h % 6000 / 100) ++ '.' :: pad2 (h % 100)) :=
    pyReplace_eq_self (fun c hc => mmss_no_comma hc)
  have hstrip : pyStrip
      (pad2 (h / 6000) ++ ':' :: (pad2 (h % 6000 / 100) ++ '.' :: pad2 (h % 100))) =
      pad2 (h / 6000) ++ ':' :: (pad2 (h % 6000 / 100) ++ '.' :: pad2 (h % 100)) :=
    pyStrip_eq_self (fun c hc => mmss_no_space hc)
  unfold resultsParseSwimtimeL fmtMMSS resultsSwimtimeBody
  rw [if_neg (not_null_token scrape_tok_len
        (by rw [← fmtMMSS, fmtMMSS_length]; omega))]
  rw [hrepl, hstrip, scrapeFallback_mmss hM hS hHU]
  congr 1
  push_cast
  omega

/-! ## Frame and step lemmas for the scrape row extraction -/

lemma resolveOrCreateClub_spec (db : ScrapeDb) (code nm : List Char) :
    ∃ cs, (resolveOrCreateClub db code nm).2.clubs = db.clubs ++ cs ∧
      (resolveOrCreateClub db code nm).2.results = db.results ∧
      (resolveOrCreateClub db code nm).2.athletes = db.athletes ∧
      (∀ c ∈ cs, c.nation = some "HUN" ∧ c.code = code) ∧
      ∃ c ∈ (resolveOrCreateClub db code nm).2.clubs,
        c.id = (resolveOrCreateClub db code nm).1 ∧ c.code = code := by
  unfold resolveOrCreateClub
  cases hfind : db.clubs.find? (fun c => c.code == code) with
  | some c =>
    refine ⟨[], by simp, rfl, rfl, by simp, c, List.mem_of_find?_eq_some hfind, rfl, ?_⟩
    have := List.find?_some hfind
    exact eq_of_beq this
  | none =>
    refine ⟨[⟨db.nextId, code, if nm = [] then code else nm, some "HUN"⟩],
      rfl, rfl, rfl, ?_, ⟨db.nextId, code, if nm = [] then code else nm, some "HUN"⟩,
      List.mem_append_right _ (List.mem_singleton.mpr rfl), rfl, rfl⟩
    intro c hc
    rw [List.mem_singleton] at hc
    subst hc
    exact ⟨rfl, rfl⟩

lemma scrapeEnsureAthlete_frame (fb : Int → Option Nat) (db : ScrapeDb) (umk : Int)
    (fn ln : String) (b : Option Nat) :
    (scrapeEnsureAthlete fb db umk fn ln b).results = db.results ∧
    (scrapeEnsureAthlete fb db umk fn ln b).clubs = db.clubs ∧
    (scrapeEnsureAthlete fb db umk fn ln b).nextId = db.nextId := by
  unfold scrapeEnsureAthlete
  split <;> exact ⟨rfl, rfl, rfl⟩

lemma insertSplits_frame (i : Nat) :
    ∀ (sps : List (Nat × Nat)) (db : ScrapeDb),
      (insertSplits i db sps).results = db.results ∧
      (insertSplits i db sps).clubs = db.clubs := by
  intro sps
  induction sps with
  | nil => intro db; exact ⟨rfl, rfl⟩
  | cons p rest ih =>
    intro db
    have h := ih { db with splits := db.splits ++ [(i, p.1, p.2)] }
    exact ⟨h.1, h.2⟩

/-- Case analysis of one heat-page row: either the state is unchanged, or
exactly one result row for a fresh `(event, heat, athlete)` triple is
appended, with the dedup set extended by that triple, clubs only grown
(new ones carrying nation HUN and the code derived from the club text),
and a non-null time or status on the new row. -/
lemma pagesProcessRow_cases (fb : Int → Option Nat) (ev hn : Nat)
    (st : ExtractState) (row : RawRow) :
    pagesProcessRow fb ev hn st row = st ∨
    ∃ (umk : Int) (res : ScrapeResultRow) (cs : List ClubRow),
      (pagesProcessRow fb ev hn st row).seen = (ev, hn, umk) :: st.seen ∧
      (pagesProcessRow fb ev hn st row).db.results = st.db.results ++ [res] ∧
      (pagesProcessRow fb ev hn st row).db.clubs = st.db.clubs ++ cs ∧
      resultTriple res = (ev, hn, umk) ∧
      (ev, hn, umk) ∉ st.seen ∧
      (res.timehundredths ≠ none ∨ res.status ≠ none) ∧
      (∃ c ∈ (pagesProcessRow fb ev hn st row).db.clubs, c.id = res.clubid) ∧
      (∀ c ∈ cs, c.nation = some "HUN" ∧ c.code = clubCodeOf row.clubText) := by
  unfold pagesProcessRow
  dsimp only
  split
  · exact Or.inl rfl
  split
  · exact Or.inl rfl
  split
  · exact Or.inl rfl
  next umk humk =>
    split
    · exact Or.inl rfl
    next hseen =>
      split
      · exact Or.inl rfl
      next hts =>
        obtain ⟨cs, hclubs, hres, hath, hnat, c, hcmem, hcid, hccode⟩ :=
          resolveOrCreateClub_spec st.db (clubCodeOf row.clubText) row.clubText.data
        obtain ⟨hfr, hfc, hfn⟩ := scrapeEnsureAthlete_frame fb
          (resolveOrCreateClub st.db (clubCodeOf row.clubText) row.clubText.data).2
          umk row.firstname row.lastname row.birthYear
        refine Or.inr ⟨umk,
          ⟨(scrapeEnsureAthlete fb
              (resolveOrCreateClub st.db (clubCodeOf row.clubText) row.clubText.data).2
              umk row.firstname row.lastname row.birthYear).nextId,
            umk, ev, hn,
            (resolveOrCreateClub st.db (clubCodeOf row.clubText) row.clubText.data).1,
            laneOfCell row.laneCell, timeHundOf (cleanCell row.timeCell),
            statusOfCell (cleanCell row.timeCell), rankOfCell row.rankCell,
            rtFind (cleanCell row.timeCell), finaOfCell row.finaCell⟩,
          cs, rfl, ?_, ?_, rfl, hseen, ?_, ?_, hnat⟩
        · rw [(insertSplits_frame _ row.splitsRows _).1]
          dsimp only
          rw [hfr, hres]
        · rw [(insertSplits_frame _ row.splitsRows _).2]
          dsimp only
          rw [hfc, hclubs]
        · rcases Decidable.not_and_iff_or_not.mp hts with h | h
          · exact Or.inl h
          · exact Or.inr h
        · refine ⟨c, ?_, hcid⟩
          rw [(insertSplits_frame _ row.splitsRows _).2]
          dsimp only
          rw [hfc]
          exact hcmem

lemma pagesExtractRows_spec (fb : Int → Option Nat) (ev hn : Nat) :
    ∀ (rows : List RawRow) (st : ExtractState),
      ∃ tail newClubs,
        (pagesExtractRows fb ev hn st rows).db.results = st.db.results ++ tail ∧
        (pagesExtractRows fb ev hn st rows).db.clubs = st.db.clubs ++ newClubs ∧
        (∀ t ∈ st.seen, t ∈ (pagesExtractRows fb ev hn st rows).seen) ∧
        (tail.map resultTriple).Nodup ∧
        (∀ r ∈ tail, resultTriple r ∈ (pagesExtractRows fb ev hn st rows).seen ∧
          resultTriple r ∉ st.seen) ∧
        (∀ r ∈ tail, r.timehundredths ≠ none ∨ r.status ≠ none) ∧
        (∀ r ∈ tail, ∃ c ∈ (pagesExtractRows fb ev hn st rows).db.clubs,
          c.id = r.clubid) ∧
        (∀ c ∈ newClubs, c.nation = some "HUN") := by
  intro rows
  induction rows with
  | nil =>
    intro st
    exact ⟨[], [], by simp [pagesExtractRows], by simp [pagesExtractRows],
      fun t ht => ht, List.nodup_nil, by simp, by simp, by simp, by simp⟩
  | cons row rows ih =>
    intro st
    have hfold : pagesExtractRows fb ev hn st (row :: rows) =
        pagesExtractRows fb ev hn (pagesProcessRow fb ev hn st row) rows := rfl
    obtain ⟨tail₁, clubs₁, ih1, ih2, ih3, ih4, ih5, ih6, ih7, ih8⟩ :=
      ih (pagesProcessRow fb ev hn st row)
    rcases pagesProcessRow_cases fb ev hn st row with heq |
      ⟨umk, res, cs, h1, h2, h3, h4, h5, h6, h7, h8⟩
    · rw [hfold, heq]
      rw [heq] at ih1 ih2 ih3 ih5 ih7
      exact ⟨tail₁, clubs₁, ih1, ih2, ih3, ih4, ih5, ih6, ih7, ih8⟩
    · refine ⟨res :: tail₁, cs ++ clubs₁, ?_, ?_, ?_, ?_, ?_, ?_, ?_, ?_⟩
      · rw [hfold, ih1, h2]
        simp
      · rw [hfold, ih2, h3]
        simp
      · intro t ht
        rw [hfold]
        exact ih3 t (h1 ▸ List.mem_cons_of_mem _ ht)
      · rw [List.map_cons, List.nodup_cons]
        refine ⟨?_, ih4⟩
        intro hmem
        obtain ⟨r', hr', htr⟩ := List.mem_map.mp hmem
        have h9 := (ih5 r' hr').2
        rw [htr, h4, h1] at h9
        exact h9 (List.mem_cons_self _ _)
      · intro r hr
        rcases List.mem_cons.mp hr with rfl | hr
        · constructor
          · rw [hfold, h4]
            exact ih3 _ (h1 ▸ List.mem_cons_self _ _)
          · rw [h4]; exact h5
        · refine ⟨by rw [hfold]; exact (ih5 r hr).1, ?_⟩
          intro hmem
          exact (ih5 r hr).2 (h1 ▸ List.mem_cons_of_mem _ hmem)
      · intro r hr
        rcases List.mem_cons.mp hr with rfl | hr
        · exact h6
        · exact ih6 r hr
      · intro r hr
        rcases List.mem_cons.mp hr with rfl | hr
        · obtain ⟨c, hcmem, hcid⟩ := h7
          refine ⟨c, ?_, hcid⟩
          rw [hfold, ih2]
          exact List.mem_append_left _ hcmem
        · rw [hfold]
          exact ih7 r hr
      · intro c hc
        rcases List.mem_append.mp hc with hc | hc
        · exact (h8 c hc).1
        · exact ih8 c hc

/-- Case analysis of one summary-table row (no empty-row guard there). -/
lemma sumProcessRow_cases (fb : Int → Option Nat) (ev : Nat)
    (st : ExtractState) (row : SumRow) :
    sumProcessRow fb ev st row = st ∨
    ∃ (umk : Int) (res : ScrapeResultRow) (cs : List ClubRow),
      (sumProcessRow fb ev st row).seen = (ev, (sumHeatLane row).1, umk) :: st.seen ∧
      (sumProcessRow fb ev st row).db.results = st.db.results ++ [res] ∧
      (sumProcessRow fb ev st row).db.clubs = st.db.clubs ++ cs ∧
      resultTriple res = (ev, (sumHeatLane row).1, umk) ∧
      (ev, (sumHeatLane row).1, umk) ∉ st.seen ∧
      (∃ c ∈ (sumProcessRow fb ev st row).db.clubs, c.id = res.clubid) ∧
      (∀ c ∈ cs, c.nation = some "HUN" ∧ c.code = clubCodeOf row.clubText) := by
  unfold sumProcessRow
  dsimp only
  split
  · exact Or.inl rfl
  split
  · exact Or.inl rfl
  split
  · exact Or.inl rfl
  next umk humk =>
    split
    · exact Or.inl rfl
    next hseen =>
      obtain ⟨cs, hclubs, hres, hath, hnat, c, hcmem, hcid, hccode⟩ :=
        resolveOrCreateClub_spec st.db (clubCodeOf row.clubText) row.clubText.data
      obtain ⟨hfr, hfc, hfn⟩ := scrapeEnsureAthlete_frame fb
        (resolveOrCreateClub st.db (clubCodeOf row.clubText) row.clubText.data).2
        umk row.firstname row.lastname row.birthYear
      refine Or.inr ⟨umk,
        ⟨(scrapeEnsureAthlete fb
            (resolveOrCreateClub st.db (clubCodeOf row.clubText) row.clubText.data).2
            umk row.firstname row.lastname row.birthYear).nextId,
          umk, ev, (sumHeatLane row).1,
          (resolveOrCreateClub st.db (clubCodeOf row.clubText) row.clubText.data).1,
          (sumHeatLane row).2, resultsParseSwimtimeL (sumTimeS row.timeCell),
          none, rankOfCell row.rankCell, none, none⟩,
        cs, rfl, ?_, ?_, rfl, hseen, ?_, hnat⟩
      · dsimp only
        rw [hfr, hres]
      · dsimp only
        rw [hfc, hclubs]
      · refine ⟨c, ?_, hcid⟩
        dsimp only
        rw [hfc]
        exact hcmem

lemma sumExtractRows_spec (fb : Int → Option Nat) (ev : Nat) :
    ∀ (rows : List SumRow) (st : ExtractState),
      ∃ tail newClubs,
        (sumExtractRows fb ev st rows).db.results = st.db.results ++ tail ∧
        (sumExtractRows fb ev st rows).db.clubs = st.db.clubs ++ newClubs ∧
        (∀ t ∈ st.seen, t ∈ (sumExtractRows fb ev st rows).seen) ∧
        (tail.map resultTriple).Nodup ∧
        (∀ r ∈ tail, resultTriple r ∈ (sumExtractRows fb ev st rows).seen ∧
          resultTriple r ∉ st.seen) ∧
        (∀ r ∈ tail, ∃ c ∈ (sumExtractRows fb ev st rows).db.clubs, c.id = r.clubid) ∧
        (∀ c ∈ newClubs, c.nation = some "HUN") := by
  intro rows
  induction rows with
  | nil =>
    intro st
    exact ⟨[], [], by simp [sumExtractRows], by simp [sumExtractRows],
      fun t ht => ht, List.nodup_nil, by simp, by simp, by simp⟩
  | cons row rows ih =>
    intro st
    have hfold : sumExtractRows fb ev st (row :: rows) =
        sumExtractRows fb ev (sumProcessRow fb ev st row) rows := rfl
    obtain ⟨tail₁, clubs₁, ih1, ih2, ih3, ih4, ih5, ih6, ih7⟩ :=
      ih (sumProcessRow fb ev st row)
    rcases sumProcessRow_cases fb ev st row with heq |
      ⟨umk, res, cs, h1, h2, h3, h4, h5, h6, h7⟩
    · rw [hfold, heq]
      rw [heq] at ih1 ih2 ih3 ih5 ih6
      exact ⟨tail₁, clubs₁, ih1, ih2, ih3, ih4, ih5, ih6, ih7⟩
    · refine ⟨res :: tail₁, cs ++ clubs₁, ?_, ?_, ?_, ?_, ?_, ?_, ?_⟩
      · rw [hfold, ih1, h2]
        simp
      · rw [hfold, ih2, h3]
        simp
      · intro t ht
        rw [hfold]
        exact ih3 t (h1 ▸ List.mem_cons_of_mem _ ht)
      · rw [List.map_cons, List.nodup_cons]
        refine ⟨?_, ih4⟩
        intro hmem
        obtain ⟨r', hr', htr⟩ := List.mem_map.mp hmem
        have h9 := (ih5 r' hr').2
        rw [htr, h4, h1] at h9
        exact h9 (List.mem_cons_self _ _)
      · intro r hr
        rcases List.mem_cons.mp hr with rfl | hr
        · constructor
          · rw [hfold, h4]
            exact ih3 _ (h1 ▸ List.mem_cons_self _ _)
          · rw [h4]; exact h5
        · refine ⟨by rw [hfold]; exact (ih5 r hr).1, ?_⟩
          intro hmem
          exact (ih5 r hr).2 (h1 ▸ List.mem_cons_of_mem _ hmem)
      · intro r hr
        rcases List.mem_cons.mp hr with rfl | hr
        · obtain ⟨c, hcmem, hcid⟩ := h6
          refine ⟨c, ?_, hcid⟩
          rw [hfold, ih2]
          exact List.mem_append_left _ hcmem
        · rw [hfold]
          exact ih6 r hr
      · intro c hc
        rcases List.mem_append.mp hc with hc | hc
        · exact (h7 c hc).1
        · exact ih7 c hc

/-! ## Early-exit structure of the structured import's clubs pass -/

lemma processAthlete_bad {cfg : ImportCfg} {cid : Nat} {db : LenexDb}
    {a : AthleteElem} (h : athleteBad a = true) :
    processAthlete cfg cid db a = (db, false) := by
  have h' : athleteIdVal a.athleteid = none := by
    simpa [athleteBad, Option.isNone_iff_eq_none] using h
  simp only [processAthlete, h']

lemma processAthlete_good {cfg : ImportCfg} {cid : Nat} {db : LenexDb}
    {a : AthleteElem} (h : athleteBad a = false) :
    ∃ db', processAthlete cfg cid db a = (db', true) := by
  obtain ⟨aid, haid⟩ : ∃ v, athleteIdVal a.athleteid = some v := by
    cases hv : athleteIdVal a.athleteid with
    | none => rw [athleteBad, hv] at h; cases h
    | some v => exact ⟨v, rfl⟩
  refine ⟨(processAthlete cfg cid db a).1, ?_⟩
  have h2 : (processAthlete cfg cid db a).2 = true := by
    simp only [processAthlete, haid]
  rw [← h2]

lemma processAthletesL_nil (cfg : ImportCfg) (cid : Nat) (db : LenexDb) :
    processAthletesL cfg cid db [] = (db, .ok) := rfl

lemma processAthletesL_cons (cfg : ImportCfg) (cid : Nat) (db : LenexDb)
    (a : AthleteElem) (rest : List AthleteElem) :
    processAthletesL cfg cid db (a :: rest) =
      match processAthlete cfg cid db a with
      | (db', true) => processAthletesL cfg cid db' rest
      | (db', false) => (db', .badAthlete) := rfl

lemma processClubsL_nil (cfg : ImportCfg) (db : LenexDb) :
    processClubsL cfg db [] = (db, .ok) := rfl

lemma processClubsL_cons (cfg : ImportCfg) (db : LenexDb) (c : ClubElem)
    (rest : List ClubElem) :
    processClubsL cfg db (c :: rest) =
      match processClub cfg db c with
      | (db', .ok) => processClubsL cfg db' rest
      | (db', out) => (db', out) := rfl

lemma processAthletesL_good (cfg : ImportCfg) (cid : Nat) :
    ∀ {as : List AthleteElem} (db : LenexDb), (∀ a ∈ as, athleteBad a = false) →
      ∃ db', processAthletesL cfg cid db as = (db', .ok) := by
  intro as
  induction as with
  | nil => intro db _; exact ⟨db, rfl⟩
  | cons a rest ih =>
    intro db h
    obtain ⟨db1, hdb1⟩ := processAthlete_good (h a (List.mem_cons_self a rest))
    obtain ⟨db2, hdb2⟩ := ih db1 (fun x hx => h x (List.mem_cons_of_mem _ hx))
    exact ⟨db2, by rw [processAthletesL_cons, hdb1]; exact hdb2⟩

lemma processAthletesL_bad (cfg : ImportCfg) (cid : Nat) :
    ∀ {as : List AthleteElem} (db : LenexDb), as.any athleteBad = true →
      processAthletesL cfg cid db as =
        ((processAthletesL cfg cid db (as.takeWhile (fun a => !athleteBad a))).1,
          .badAthlete) ∧
      (processAthletesL cfg cid db (as.takeWhile (fun a => !athleteBad a))).2 = .ok := by
  intro as
  induction as with
  | nil => intro db h; simp at h
  | cons a rest ih =>
    intro db h
    cases hb : athleteBad a with
    | true =>
      have htw : (a :: rest).takeWhile (fun a => !athleteBad a) = [] := by
        rw [List.takeWhile_cons, hb]
        rfl
      rw [htw]
      constructor
      · rw [processAthletesL_cons, processAthlete_bad hb, processAthletesL_nil]
      · rfl
    | false =>
      have hrest : rest.any athleteBad = true := by
        rw [List.any_cons, hb] at h
        simpa using h
      obtain ⟨db1, hdb1⟩ := processAthlete_good hb
      have htw : (a :: rest).takeWhile (fun a => !athleteBad a) =
          a :: rest.takeWhile (fun a => !athleteBad a) := by
        rw [List.takeWhile_cons, hb]
        rfl
      obtain ⟨ih1, ih2⟩ := ih db1 hrest
      rw [htw]
      constructor
      · rw [processAthletesL_cons, hdb1, processAthletesL_cons, hdb1]
        exact ih1
      · rw [processAthletesL_cons, hdb1]
        exact ih2

lemma truncClub_code (c : ClubElem) :
    clubCodeOfElem { c with
        athletes := some ((c.athletes.getD []).takeWhile (fun a => !athleteBad a)) } =
      clubCodeOfElem c := rfl

lemma processClub_bad (cfg : ImportCfg) (db : LenexDb) {c : ClubElem}
    (hwf : clubWellformed c = true) (hb : clubHasBad c = true) :
    processClub cfg db c =
      ((processClub cfg db { c with
          athletes := some ((c.athletes.getD []).takeWhile (fun a => !athleteBad a)) }).1,
        .badAthlete) ∧
    (processClub cfg db { c with
        athletes := some ((c.athletes.getD []).takeWhile (fun a => !athleteBad a)) }).2 =
      .ok := by
  obtain ⟨code, hcode⟩ : ∃ v, clubCodeOfElem c = some v := by
    cases hv : clubCodeOfElem c with
    | none => rw [clubWellformed, hv] at hwf; cases hwf
    | some v => exact ⟨v, rfl⟩
  have hany : (c.athletes.getD []).any athleteBad = true := hb
  obtain ⟨h1, h2⟩ := processAthletesL_bad cfg
    (resolveClubLenex db code
      (match optNonempty c.name with | some n => n.data | none => code)
      (let n3 := ((c.nation).getD "").data.take 3
       if n3 = [] then none else some (String.mk n3))).1
    (resolveClubLenex db code
      (match optNonempty c.name with | some n => n.data | none => code)
      (let n3 := ((c.nation).getD "").data.take 3
       if n3 = [] then none else some (String.mk n3))).2
    hany
  constructor
  · simp only [processClub, truncClub_code, hcode]
    exact h1
  · simp only [processClub, truncClub_code, hcode]
    exact h2

lemma processClub_good (cfg : ImportCfg) (db : LenexDb) {c : ClubElem}
    (hwf : clubWellformed c = true) (hb : clubHasBad c = false) :
    ∃ db', processClub cfg db c = (db', .ok) := by
  obtain ⟨code, hcode⟩ : ∃ v, clubCodeOfElem c = some v := by
    cases hv : clubCodeOfElem c with
    | none => rw [clubWellformed, hv] at hwf; cases hwf
    | some v => exact ⟨v, rfl⟩
  have hall : ∀ a ∈ c.athletes.getD [], athleteBad a = false := by
    intro a ha
    have := List.any_eq_false.mp hb -- hb : any = false
    simpa using this a ha
  obtain ⟨db', hdb'⟩ := processAthletesL_good cfg
    (resolveClubLenex db code
      (match optNonempty c.name with | some n => n.data | none => code)
      (let n3 := ((c.nation).getD "").data.take 3
       if n3 = [] then none else some (String.mk n3))).1
    (resolveClubLenex db code
      (match optNonempty c.name with | some n => n.data | none => code)
      (let n3 := ((c.nation).getD "").data.take 3
       if n3 = [] then none else some (String.mk n3))).2
    hall
  refine ⟨db', ?_⟩
  simp only [processClub, hcode]
  exact hdb'

lemma processClubsL_spec {cfg : ImportCfg} :
    ∀ {cs : List ClubElem} (db : LenexDb),
      (∀ c ∈ cs, clubWellformed c = true) → cs.any clubHasBad = true →
      processClubsL cfg db cs =
        ((processClubsL cfg db (truncClubs cs)).1, .badAthlete) ∧
      (processClubsL cfg db (truncClubs cs)).2 = .ok := by
  intro cs
  induction cs with
  | nil => intro db _ h; simp at h
  | cons c rest ih =>
    intro db hwf h
    cases hb : clubHasBad c with
    | true =>
      have htr : truncClubs (c :: rest) = [{ c with
          athletes := some ((c.athletes.getD []).takeWhile (fun a => !athleteBad a)) }] := by
        rw [truncClubs, if_pos hb]
      obtain ⟨h1, h2⟩ := processClub_bad cfg db
        (hwf c (List.mem_cons_self c rest)) hb
      rcases hres : processClub cfg db { c with
          athletes := some ((c.athletes.getD []).takeWhile (fun a => !athleteBad a)) }
        with ⟨db', out⟩
      rw [hres] at h1 h2
      simp only at h1 h2
      subst h2
      rw [htr]
      constructor
      · rw [processClubsL_cons, h1, processClubsL_cons, hres]
        simp only [processClubsL_nil]
      · rw [processClubsL_cons, hres]
        simp only [processClubsL_nil]
    | false =>
      have hrest : rest.any clubHasBad = true := by
        rw [List.any_cons, hb] at h
        simpa using h
      obtain ⟨db', hdb'⟩ := processClub_good cfg db
        (hwf c (List.mem_cons_self c rest)) hb
      have htr : truncClubs (c :: rest) = c :: truncClubs rest := by
        rw [truncClubs, if_neg (by rw [hb]; exact Bool.false_ne_true)]
      obtain ⟨ih1, ih2⟩ := ih db'
        (fun x hx => hwf x (List.mem_cons_of_mem _ hx)) hrest
      rw [htr]
      constructor
      · rw [processClubsL_cons, hdb', processClubsL_cons, hdb']
        exact ih1
      · rw [processClubsL_cons, hdb']
        exact ih2

/-! ## The meet row survives the whole structured import -/

lemma foldl_meets_inv {α : Type} {f : (LenexDb × LocalMaps) → α → (LenexDb × LocalMaps)}
    (hf : ∀ acc x, ((f acc x).1).meets = (acc.1).meets) :
    ∀ (l : List α) (acc : LenexDb × LocalMaps),
      ((l.foldl f acc).1).meets = (acc.1).meets := by
  intro l
  induction l with
  | nil => intro acc; rfl
  | cons x rest ih =>
    intro acc
    rw [List.foldl_cons, ih, hf]

lemma foldl_meets_inv' {α : Type} {f : LenexDb → α → LenexDb}
    (hf : ∀ d x, (f d x).meets = d.meets) :
    ∀ (l : List α) (d : LenexDb), ((l.foldl f d).meets = d.meets) := by
  intro l
  induction l with
  | nil => intro d; rfl
  | cons x rest ih =>
    intro d
    rw [List.foldl_cons, ih, hf]

lemma processHeat_meets (s e : Nat) (acc : LenexDb × LocalMaps) (h : HeatElem) :
    ((processHeat s e acc h).1).meets = (acc.1).meets := rfl

lemma processEvent_meets (mid : Int) (s : Nat) (acc : LenexDb × LocalMaps)
    (ev : EventElem) : ((processEvent mid s acc ev).1).meets = (acc.1).meets := by
  unfold processEvent
  dsimp only
  rw [foldl_meets_inv (fun a x => processHeat_meets s acc.1.nextId a x)]

lemma processSession_meets (mid : Int) (acc : LenexDb × LocalMaps)
    (sess : SessionElem) : ((processSession mid acc sess).1).meets = (acc.1).meets := by
  unfold processSession
  dsimp only
  rw [foldl_meets_inv (fun acc x => processEvent_meets mid _ acc x)]

lemma processResult_meets (cfg : ImportCfg) (aid : Int) (cid : Nat) (db : LenexDb)
    (res : ResultElem) : (processResult cfg aid cid db res).meets = db.meets := by
  unfold processResult
  dsimp only
  split
  · split
    · rw [foldl_meets_inv' ?_]
      intro d sp
      dsimp only
      split
      · split <;> rfl
      · rfl
    · rfl
  · rfl

lemma processAthlete_meets (cfg : ImportCfg) (cid : Nat) (db : LenexDb)
    (a : AthleteElem) : ((processAthlete cfg cid db a).1).meets = db.meets := by
  unfold processAthlete
  dsimp only
  split
  · rfl
  next aid haid =>
    rw [foldl_meets_inv' (fun d x => processResult_meets cfg aid cid d x)]
    split
    · unfold insertAffIfAbsent
      split <;> rfl
    · rfl

lemma processAthletesL_meets (cfg : ImportCfg) (cid : Nat) :
    ∀ (as : List AthleteElem) (db : LenexDb),
      ((processAthletesL cfg cid db as).1).meets = db.meets := by
  intro as
  induction as with
  | nil => intro db; rfl
  | cons a rest ih =>
    intro db
    rcases hpa : processAthlete cfg cid db a with ⟨db1, ok⟩
    have hm : db1.meets = db.meets := by
      have h := processAthlete_meets cfg cid db a
      rw [hpa] at h
      exact h
    rw [processAthletesL_cons, hpa]
    cases ok
    · exact hm
    · exact (ih db1).trans hm

lemma processClub_meets (cfg : ImportCfg) (db : LenexDb) (c : ClubElem) :
    ((processClub cfg db c).1).meets = db.meets := by
  unfold processClub
  dsimp only
  split
  · rfl
  next code hcode =>
    have hr : ∀ nm nat, ((resolveClubLenex db code nm nat).2).meets = db.meets := by
      intro nm nat
      unfold resolveClubLenex
      split <;> rfl
    exact (processAthletesL_meets cfg _ _ _).trans (hr _ _)

lemma processClubsL_meets (cfg : ImportCfg) :
    ∀ (cs : List ClubElem) (db : LenexDb),
      ((processClubsL cfg db cs).1).meets = db.meets := by
  intro cs
  induction cs with
  | nil => intro db; rfl
  | cons c rest ih =>
    intro db
    rcases hpc : processClub cfg db c with ⟨db1, out⟩
    have hm : db1.meets = db.meets := by
      have h := processClub_meets cfg db c
      rw [hpc] at h
      exact h
    rw [processClubsL_cons, hpc]
    cases out
    · exact (ih db1).trans hm
    · exact hm
    · exact hm

lemma upsertLxMeet_mem (db : LenexDb) (mid : Int) (nm course : Option String) :
    ∃ m ∈ (upsertLxMeet db mid nm course).meets, m.id = mid := by
  unfold upsertLxMeet
  split
  next hany =>
    obtain ⟨m, hm, hmid⟩ := List.any_eq_true.mp hany
    refine ⟨_, List.mem_map.mpr ⟨m, hm, rfl⟩, ?_⟩
    dsimp only
    rw [if_pos hmid]
    exact eq_of_beq hmid
  next =>
    exact ⟨_, List.mem_append_right _ (List.mem_singleton.mpr rfl), rfl⟩

lemma repairMeetDates_mem (db : LenexDb) (mid : Int)
    (h : ∃ m ∈ db.meets, m.id = mid) :
    ∃ m ∈ (repairMeetDates db mid).meets, m.id = mid := by
  obtain ⟨m, hm, hmid⟩ := h
  unfold repairMeetDates
  dsimp only
  refine ⟨_, List.mem_map.mpr ⟨m, hm, rfl⟩, ?_⟩
  dsimp only
  cases hif : (m.id == mid) with
  | false => rw [if_neg Bool.false_ne_true]; exact hmid
  | true => rw [if_pos rfl]; exact hmid

/-- The import with the clubs collection exposed. -/
lemma importLenexFile_clubs (db : LenexDb) (mid : Int) (meet : MeetElem)
    (cs : List ClubElem) (hcs : meet.clubs = some cs) :
    importLenexFile db mid meet =
      processClubsL
        ⟨mid, ((meet.sessions.getD []).foldl (processSession mid)
          (upsertLxMeet db mid (some (orElseStr meet.name "Unknown"))
            (some (orElseStr meet.course "LCM")), emptyMaps)).2⟩
        (repairMeetDates ((meet.sessions.getD []).foldl (processSession mid)
          (upsertLxMeet db mid (some (orElseStr meet.name "Unknown"))
            (some (orElseStr meet.course "LCM")), emptyMaps)).1 mid) cs := by
  unfold importLenexFile
  dsimp only
  rw [hcs]

lemma import_meet_mem (db : LenexDb) (mid : Int) (meet : MeetElem) :
    ∃ m ∈ (importLenexFile db mid meet).1.meets, m.id = mid := by
  have hup := upsertLxMeet_mem db mid (some (orElseStr meet.name "Unknown"))
    (some (orElseStr meet.course "LCM"))
  have hsess : (((meet.sessions.getD []).foldl (processSession mid)
      (upsertLxMeet db mid (some (orElseStr meet.name "Unknown"))
        (some (orElseStr meet.course "LCM")), emptyMaps)).1).meets =
      (upsertLxMeet db mid (some (orElseStr meet.name "Unknown"))
        (some (orElseStr meet.course "LCM"))).meets :=
    foldl_meets_inv (fun acc x => processSession_meets mid acc x) _ _
  have hrep := repairMeetDates_mem _ mid (by rw [hsess]; exact hup)
  unfold importLenexFile
  dsimp only
  cases hc : meet.clubs with
  | none => exact hrep
  | some cs =>
    rw [processClubsL_meets]
    exact hrep

/-! ## Claim theorems -/

/-- C1 counterexample: upserting athlete 100 with firstname "Anna", then
with a null firstname and a birthdate, then with firstname "Other",
leaves "Other" stored — the incoming non-null value overwrites "Anna",
refuting the claim that existing non-null fields are preserved. -/
theorem c1_upsert_overwrite_cex :
    (((upsertLxAthlete
        (upsertLxAthlete
          (upsertLxAthlete [] 100 (some "Anna") none none none)
          100 none none (some 20100101) none)
        100 (some "Other") none none none).find?
          (fun a => a.id == 100)).map (fun a => a.firstname)) = some (some "Other") ∧
    (some "Other" : Option String) ≠ some "Anna" := by
  constructor
  · decide
  · decide

/-- C1 (amended): the athlete upsert merges per field with
`COALESCE(EXCLUDED.x, stored.x)`: an incoming null leaves the stored
value, an incoming non-null value overwrites it.  So (Anna, null) then
(null, 2010-01-01) yields both fields populated, but a later upsert with
firstname "Other" does overwrite "Anna". -/
theorem c1_athlete_upsert_merge :
    (∀ (athletes : List AthleteRow) (i : Int) (fn ln : Option String)
        (bd : Option Nat) (g : Option String) (a : AthleteRow),
        a ∈ athletes → a.id = i →
        { a with firstname := fn <|> a.firstname, lastname := ln <|> a.lastname,
                 birthdate := bd <|> a.birthdate, gender := g <|> a.gender } ∈
          upsertLxAthlete athletes i fn ln bd g) ∧
    ((((upsertLxAthlete (upsertLxAthlete [] 100 (some "Anna") none none none)
          100 none none (some 20100101) none).find? (fun a => a.id == 100)).map
        (fun a => (a.firstname, a.birthdate))) =
      some (some "Anna", some 20100101)) ∧
    ((((upsertLxAthlete
          (upsertLxAthlete (upsertLxAthlete [] 100 (some "Anna") none none none)
            100 none none (some 20100101) none)
          100 (some "Other") none none none).find? (fun a => a.id == 100)).map
        (fun a => (a.firstname, a.birthdate))) =
      some (some "Other", some 20100101)) := by
  refine ⟨?_, by decide, by decide⟩
  intro athletes i fn ln bd g a ha hid
  unfold upsertLxAthlete
  rw [if_pos (List.any_eq_true.mpr ⟨a, ha, by simp [hid]⟩)]
  exact List.mem_map.mpr ⟨a, ha, by simp [hid]⟩

theorem c1_athlete_upsert_merge_witness :
    ((⟨100, some "Anna", none, none, none⟩ : AthleteRow) ∈
      [(⟨100, some "Anna", none, none, none⟩ : AthleteRow)]) ∧
    ({ (⟨100, some "Anna", none, none, none⟩ : AthleteRow) with
        firstname := none <|> some "Anna", lastname := (none : Option String) <|> none,
        birthdate := some 20100101 <|> none,
        gender := (none : Option String) <|> none } ∈
      upsertLxAthlete [(⟨100, some "Anna", none, none, none⟩ : AthleteRow)]
        100 none none (some 20100101) none) :=
  ⟨List.mem_singleton.mpr rfl,
   c1_athlete_upsert_merge.1 _ 100 none none (some 20100101) none _
     (List.mem_singleton.mpr rfl) rfl⟩

/-- C2: within one run, the rows a scrape extractor appends carry
pairwise-distinct `(event, heat number, athlete)` triples — enforced by
the in-memory seen-set in both the heat-page and the summary extractor —
and feeding the heat-page extractor the same qualifying row twice yields
exactly one result row. -/
theorem c2_per_run_dedup :
    (∀ (fb : Int → Option Nat) (ev hn : Nat) (rows : List RawRow) (st : ExtractState),
      ∃ tail, (pagesExtractRows fb ev hn st rows).db.results = st.db.results ++ tail ∧
        (tail.map resultTriple).Nodup) ∧
    (∀ (fb : Int → Option Nat) (ev : Nat) (rows : List SumRow) (st : ExtractState),
      ∃ tail, (sumExtractRows fb ev st rows).db.results = st.db.results ++ tail ∧
        (tail.map resultTriple).Nodup) ∧
    ((pagesExtractRows (fun _ => none) 5 2 ⟨emptyScrapeDb, []⟩
        [demoRow, demoRow]).db.results.length = 1) := by
  refine ⟨?_, ?_, by decide⟩
  · intro fb ev hn rows st
    obtain ⟨tail, -, h1, -, -, h4, -, -, -, -⟩ := pagesExtractRows_spec fb ev hn rows st
    exact ⟨tail, h1, h4⟩
  · intro fb ev rows st
    obtain ⟨tail, -, h1, -, -, h4, -, -, -⟩ := sumExtractRows_spec fb ev rows st
    exact ⟨tail, h1, h4⟩

/-- C3: the heat-page discovery loop.  When session n's heat selector is
empty the source probes session n+1 and then terminates no matter what
that probe returned (the unconditional `break` at line 362): a competition
with two empty sessions is probed exactly twice creating nothing, but a
competition whose session 2 does have heats is also abandoned after the
same two probes with nothing created — refuting "terminates exactly when
that probe also yields no heats" and the module's own docstring. -/
theorem c3_discovery_termination (n : Nat) :
    (travLoop siteBothEmpty (n + 1) (initTravState 500) =
      travLoop siteBothEmpty 1 (initTravState 500)) ∧
    (travLoop siteBothEmpty 1 (initTravState 500)).probed = [(1, 1), (2, 2)] ∧
    (travLoop siteBothEmpty 1 (initTravState 500)).db.sessions = [] ∧
    (travLoop siteBothEmpty 1 (initTravState 500)).db.events = [] ∧
    (travLoop siteBothEmpty 1 (initTravState 500)).db.results = [] ∧
    (travLoop siteSecondHasHeats (n + 1) (initTravState 500) =
      travLoop siteSecondHasHeats 1 (initTravState 500)) ∧
    (siteSecondHasHeats.page 2 2).heatOptions ≠ [] ∧
    (travLoop siteSecondHasHeats 1 (initTravState 500)).probed = [(1, 1), (2, 2)] ∧
    (travLoop siteSecondHasHeats 1 (initTravState 500)).db.events = [] ∧
    (travLoop siteSecondHasHeats 1 (initTravState 500)).db.results = [] := by
  refine ⟨rfl, by decide, by decide, by decide, by decide, rfl, by decide,
    by decide, by decide, by decide⟩

/-- C4 counterexample: the heat-page driver writes `scraped` even when
the scrape run failed, never `scrape_failed`. -/
theorem c4_pages_writeback_cex :
    pagesMainWriteback .failure = RecStatus.scraped ∧
    RecStatus.scraped ≠ RecStatus.scrape_failed := by
  exact ⟨rfl, by decide⟩

/-- C4 (amended): the structured driver writes `processed` on success and
`processing_failed` on any failure; the summary-scraper driver writes
`scraped`/`scrape_failed` matching the outcome; but the heat-page driver
writes `scraped` unconditionally for every completed non-dry run, even
when the scrape failed internally (failures are only logged). -/
theorem c4_status_writeback :
    lenexMainWriteback .ok = .processed ∧
    lenexMainWriteback .returnedFalse = .processing_failed ∧
    lenexMainWriteback .raisedValueError = .processing_failed ∧
    lenexMainWriteback .raisedOther = .processing_failed ∧
    resultsMainWriteback .success = .scraped ∧
    resultsMainWriteback .failure = .scrape_failed ∧
    (∀ o : ScrapeRunOutcome, pagesMainWriteback o = .scraped) := by
  refine ⟨rfl, rfl, rfl, rfl, rfl, rfl, ?_⟩
  intro o
  cases o <;> rfl

/-- C5: a document containing an athlete element without a numeric
athlete id makes the whole import fail, and the state it leaves behind is
exactly the state of a successful import of the document truncated just
before the failing athlete in processing order — so no result rows beyond
that point exist, while the meet row and the clubs/athletes written
earlier (including the failing athlete's own club row) remain. -/
theorem c5_athlete_id_abort (db : LenexDb) (mid : Int) (meet : MeetElem)
    (cs : List ClubElem) (hcs : meet.clubs = some cs)
    (hwf : ∀ c ∈ cs, clubWellformed c = true)
    (hbad : cs.any clubHasBad = true) :
    (importLenexFile db mid meet).2 = .badAthlete ∧
    (importLenexFile db mid meet).1 =
      (importLenexFile db mid { meet with clubs := some (truncClubs cs) }).1 ∧
    (importLenexFile db mid { meet with clubs := some (truncClubs cs) }).2 = .ok ∧
    (∃ m ∈ (importLenexFile db mid meet).1.meets, m.id = mid) := by
  have e1 := importLenexFile_clubs db mid meet cs hcs
  have e2 := importLenexFile_clubs db mid { meet with clubs := some (truncClubs cs) }
    (truncClubs cs) rfl
  dsimp only at e2
  refine ⟨?_, ?_, ?_, import_meet_mem db mid meet⟩
  · rw [e1, (processClubsL_spec _ hwf hbad).1]
  · rw [e1, e2, (processClubsL_spec _ hwf hbad).1]
  · rw [e2]
    exact (processClubsL_spec _ hwf hbad).2

theorem c5_athlete_id_abort_witness :
    (demoMeet.clubs = some demoClubs ∧
     (∀ c ∈ demoClubs, clubWellformed c = true) ∧
     demoClubs.any clubHasBad = true) ∧
    ((importLenexFile emptyLenexDb 500 demoMeet).2 = .badAthlete ∧
     (importLenexFile emptyLenexDb 500 demoMeet).1 =
       (importLenexFile emptyLenexDb 500
         { demoMeet with clubs := some (truncClubs demoClubs) }).1 ∧
     (importLenexFile emptyLenexDb 500
       { demoMeet with clubs := some (truncClubs demoClubs) }).2 = .ok ∧
     (∃ m ∈ (importLenexFile emptyLenexDb 500 demoMeet).1.meets, m.id = 500)) :=
  ⟨⟨rfl, by decide, by decide⟩,
   c5_athlete_id_abort emptyLenexDb 500 demoMeet demoClubs rfl (by decide) (by decide)⟩

/-- C6: each time parser returns null, never an error, on every
recognized non-finish token and on every string whose numeric body fails
to parse (the parsers are total functions into `Option`; the numeric
failure paths propagate as `none`). -/
theorem c6_time_codec_null_set :
    (∀ s : String, lenexSwimtimeBody s.data = none → lenexParseSwimtime s = none) ∧
    (∀ s : String, resultsSwimtimeBody s.data = none → resultsParseSwimtime s = none) ∧
    (∀ s : String,
      clockFind (pyStrip (pyReplace ',' '.' s.data)) = none →
      scrapeFallback (pyStrip (pyReplace ',' '.' s.data)) = none →
      pagesParseSwimtime s = none) ∧
    (∀ t ∈ (["NT", "DNS", "DSQ", "DQ", "SCR", "VL", "-", ""] : List String),
      lenexParseSwimtime t = none ∧ resultsParseSwimtime t = none ∧
        pagesParseSwimtime t = none) := by
  refine ⟨?_, ?_, ?_, by decide⟩
  · intro s h
    unfold lenexParseSwimtime lenexParseSwimtimeL
    split
    · rfl
    · exact h
  · intro s h
    unfold resultsParseSwimtime resultsParseSwimtimeL
    split
    · rfl
    · exact h
  · intro s h1 h2
    unfold pagesParseSwimtime pagesParseSwimtimeL
    split
    · rfl
    · dsimp only
      rw [h1]
      exact h2

theorem c6_time_codec_null_set_witness :
    lenexSwimtimeBody ("--:--" : String).data = none ∧
    lenexParseSwimtime "--:--" = none :=
  ⟨by decide, c6_time_codec_null_set.1 "--:--" (by decide)⟩

/-- C7: the fractional part is right-padded / truncated to exactly two
digits: a one-digit fraction reads as tens of hundredths and longer
fractions are cut after two digits, in all three parsers; in particular
parse("1:02.9") = 6290 and parse("1:02.875") = 6287. -/
theorem c7_fraction_padding :
    lenexParseSwimtime "1:02.9" = some 6290 ∧
    lenexParseSwimtime "1:02.875" = some 6287 ∧
    pagesParseSwimtime "1:02.9" = some 6290 ∧
    pagesParseSwimtime "1:02.875" = some 6287 ∧
    resultsParseSwimtime "1:02.9" = some 6290 ∧
    resultsParseSwimtime "1:02.875" = some 6287 ∧
    (∀ d : Fin 10,
      lenexParseSwimtimeL ('1' :: ':' :: '0' :: '2' :: '.' :: [digitCh d.val]) =
        some (6200 + 10 * (d.val : Int))) ∧
    (∀ d : Fin 10,
      lenexParseSwimtimeL
          ('1' :: ':' :: '0' :: '2' :: '.' :: '8' :: '7' :: [digitCh d.val]) =
        some 6287) ∧
    (∀ d : Fin 10,
      resultsParseSwimtimeL ('1' :: ':' :: '0' :: '2' :: '.' :: [digitCh d.val]) =
        some (6200 + 10 * (d.val : Int))) := by
  decide

/-- C8 counterexample: the summary scraper's parser reads only the first
two colon groups, so the `HH:MM:SS.hh` rendering of 8345 ("00:01:23.45")
parses to 100, not 8345 — the round trip fails there. -/
theorem c8_roundtrip_cex :
    resultsParseSwimtimeL (fmtHHMMSS 8345) = some 100 ∧
    resultsParseSwimtimeL (fmtHHMMSS 8345) ≠ some 8345 := by
  constructor
  · decide
  · decide

/-- C8 (amended): for every h in [0, 360000) formatting then parsing
recovers h in both the `MM:SS.hh` and `HH:MM:SS.hh` forms for the
structured parser and the heat-page parser, and in the `MM:SS.hh` form
for the summary parser; the summary parser drops the seconds group of
`HH:MM:SS.hh` inputs. -/
theorem c8_time_codec_roundtrip (h : Nat) (hh : h < 360000) :
    lenexParseSwimtimeL (fmtMMSS h) = some (h : Int) ∧
    lenexParseSwimtimeL (fmtHHMMSS h) = some (h : Int) ∧
    pagesParseSwimtimeL (fmtMMSS h) = some (h : Int) ∧
    pagesParseSwimtimeL (fmtHHMMSS h) = some (h : Int) ∧
    resultsParseSwimtimeL (fmtMMSS h) = some (h : Int) :=
  ⟨lenexParse_fmtMMSS hh, lenexParse_fmtHHMMSS (by omega), pagesParse_fmtMMSS hh,
   pagesParse_fmtHHMMSS hh, resultsParse_fmtMMSS hh⟩

theorem c8_time_codec_roundtrip_witness :
    6290 < 360000 ∧
    (lenexParseSwimtimeL (fmtMMSS 6290) = some ((6290 : Nat) : Int) ∧
     lenexParseSwimtimeL (fmtHHMMSS 6290) = some ((6290 : Nat) : Int) ∧
     pagesParseSwimtimeL (fmtMMSS 6290) = some ((6290 : Nat) : Int) ∧
     pagesParseSwimtimeL (fmtHHMMSS 6290) = some ((6290 : Nat) : Int) ∧
     resultsParseSwimtimeL (fmtMMSS 6290) = some ((6290 : Nat) : Int)) :=
  ⟨by decide, c8_time_codec_roundtrip 6290 (by decide)⟩

/-- C9: a heat-page row whose time cell yields neither a parseable time
nor a recognized status token is dropped before the dedup set or the
database is touched, and consequently every result row the heat-page
extractor appends has a non-null time or a non-null status. -/
theorem c9_no_timeless_result :
    (∀ (fb : Int → Option Nat) (ev hn : Nat) (st : ExtractState) (row : RawRow),
      timeHundOf (cleanCell row.timeCell) = none →
      statusOfCell (cleanCell row.timeCell) = none →
      pagesProcessRow fb ev hn st row = st) ∧
    (∀ (fb : Int → Option Nat) (ev hn : Nat) (rows : List RawRow) (st : ExtractState)
      (r : ScrapeResultRow),
      r ∈ (pagesExtractRows fb ev hn st rows).db.results →
      r ∈ st.db.results ∨ r.timehundredths ≠ none ∨ r.status ≠ none) := by
  constructor
  · intro fb ev hn st row h1 h2
    unfold pagesProcessRow
    dsimp only
    split
    · rfl
    split
    · rfl
    split
    · rfl
    split
    · rfl
    rw [if_pos ⟨h1, h2⟩]
  · intro fb ev hn rows st r hr
    obtain ⟨tail, -, h1, -, -, -, -, h6, -, -⟩ := pagesExtractRows_spec fb ev hn rows st
    rw [h1] at hr
    rcases List.mem_append.mp hr with hr | hr
    · exact Or.inl hr
    · exact Or.inr (h6 r hr)

theorem c9_no_timeless_result_witness :
    timeHundOf (cleanCell demoBadRow.timeCell) = none ∧
    statusOfCell (cleanCell demoBadRow.timeCell) = none ∧
    pagesProcessRow (fun _ => none) 1 1 ⟨emptyScrapeDb, []⟩ demoBadRow =
      ⟨emptyScrapeDb, []⟩ :=
  ⟨by decide, by decide,
   c9_no_timeless_result.1 (fun _ => none) 1 1 ⟨emptyScrapeDb, []⟩ demoBadRow
     (by decide) (by decide)⟩

/-- C10: every result row appended by either scrape extractor references
a club row present in the database; the club code is the club text
truncated to 32 characters, the sentinel "UNK" when that text is empty;
a club created on miss carries nation "HUN"; and two scraped athletes
without visible clubs share the single "UNK" club row. -/
theorem c10_club_reference :
    (∀ (fb : Int → Option Nat) (ev hn : Nat) (rows : List RawRow) (st : ExtractState),
      ∀ r ∈ (pagesExtractRows fb ev hn st rows).db.results,
        r ∈ st.db.results ∨
          ∃ c ∈ (pagesExtractRows fb ev hn st rows).db.clubs, c.id = r.clubid) ∧
    (∀ (fb : Int → Option Nat) (ev : Nat) (rows : List SumRow) (st : ExtractState),
      ∀ r ∈ (sumExtractRows fb ev st rows).db.results,
        r ∈ st.db.results ∨
          ∃ c ∈ (sumExtractRows fb ev st rows).db.clubs, c.id = r.clubid) ∧
    (∀ s : String, (clubCodeOf s).length ≤ 32 ∧
      (s.data = [] → clubCodeOf s = "UNK".data)) ∧
    (∀ (db : ScrapeDb) (code nm : List Char), (∀ c ∈ db.clubs, c.code ≠ code) →
      ∃ c ∈ (resolveOrCreateClub db code nm).2.clubs,
        c.id = (resolveOrCreateClub db code nm).1 ∧ c.code = code ∧
        c.nation = some "HUN") ∧
    ((pagesExtractRows (fun _ => none) 5 1 ⟨emptyScrapeDb, []⟩
        [demoNoClubRow1, demoNoClubRow2]).db.clubs.map
          (fun c => (c.code, c.nation)) = [("UNK".data, some "HUN")]) ∧
    ((pagesExtractRows (fun _ => none) 5 1 ⟨emptyScrapeDb, []⟩
        [demoNoClubRow1, demoNoClubRow2]).db.results.map
          (fun r => r.clubid) = [1, 1]) := by
  refine ⟨?_, ?_, ?_, ?_, by decide, by decide⟩
  · intro fb ev hn rows st r hr
    obtain ⟨tail, -, h1, -, -, -, -, -, h7, -⟩ := pagesExtractRows_spec fb ev hn rows st
    rw [h1] at hr
    rcases List.mem_append.mp hr with hr | hr
    · exact Or.inl hr
    · exact Or.inr (h7 r hr)
  · intro fb ev rows st r hr
    obtain ⟨tail, -, h1, -, -, -, -, h6, -⟩ := sumExtractRows_spec fb ev rows st
    rw [h1] at hr
    rcases List.mem_append.mp hr with hr | hr
    · exact Or.inl hr
    · exact Or.inr (h6 r hr)
  · intro s
    constructor
    · unfold clubCodeOf
      split
      · decide
      · have := List.length_take 32 s.data
        omega
    · intro hs
      unfold clubCodeOf
      rw [if_pos (by rw [hs]; rfl)]
  · intro db code nm h
    have hfind : db.clubs.find? (fun c => c.code == code) = none := by
      rw [List.find?_eq_none]
      intro c hc
      simpa using h c hc
    unfold resolveOrCreateClub
    rw [hfind]
    exact ⟨⟨db.nextId, code, if nm = [] then code else nm, some "HUN"⟩,
      List.mem_append_right _ (List.mem_singleton.mpr rfl), rfl, rfl, rfl⟩

theorem c10_club_reference_witness :
    ((("" : String).data = []) ∧ clubCodeOf "" = "UNK".data) ∧
    ((∀ c ∈ emptyScrapeDb.clubs, c.code ≠ "UNK".data) ∧
      ∃ c ∈ (resolveOrCreateClub emptyScrapeDb "UNK".data []).2.clubs,
        c.id = (resolveOrCreateClub emptyScrapeDb "UNK".data []).1 ∧
        c.code = "UNK".data ∧ c.nation = some "HUN") :=
  ⟨⟨rfl, (c10_club_reference.2.2.1 "").2 rfl⟩,
   ⟨by intro c hc; simp [emptyScrapeDb] at hc,
    c10_club_reference.2.2.2.1 emptyScrapeDb "UNK".data []
      (by intro c hc; simp [emptyScrapeDb] at hc)⟩⟩

end MuszLenex
